import Mathlib

/-!
Verification of the PyRF sweep planner and sweep execution engine
(`pyrf/sweep_device.py`).

The development shallowly embeds the Python source over exact rational
arithmetic: Python floats become `ℚ`, Python ints become `ℤ`/`ℕ`,
Python exceptions become `Except String`.  Python's numeric primitives
are modelled exactly: `int()` truncates toward zero, `round()` rounds
half to even, `//` is floor division, `%` is the sign-follows-divisor
remainder, `math.floor`/`math.ceil` are `⌊·⌋`/`⌈·⌉`, and
`2 ** math.ceil(math.log(x, 2))` is the least power of two that is at
least `x` (`Int.clog 2`).
-/

/- The Batteries rational-arithmetic primitives are `@[irreducible]`;
unseal them so that concrete runs of the embedded code can be checked
by `decide`. -/
unseal Rat.mul Rat.inv Rat.add Rat.sub Rat.ofScientific

/-- Python `int(q)`: truncation toward zero. -/
def pyInt (q : ℚ) : ℤ := if 0 ≤ q then ⌊q⌋ else ⌈q⌉

/-- Python 3 `round(q)`: round to the nearest integer, ties to even. -/
def pyRound (q : ℚ) : ℤ :=
  if q - ⌊q⌋ < 1/2 then ⌊q⌋
  else if (1:ℚ)/2 < q - ⌊q⌋ then ⌊q⌋ + 1
  else if ⌊q⌋ % 2 = 0 then ⌊q⌋ else ⌊q⌋ + 1

/-- Python `x // y` on floats: floor of the true quotient, as a float. -/
def pyFloorDiv (x y : ℚ) : ℚ := (⌊x / y⌋ : ℚ)

/-- Python `x % y` on floats: `x - y * (x // y)`. -/
def pyMod (x y : ℚ) : ℚ := x - y * pyFloorDiv x y

/-- Python `2 ** z` for an integer exponent, as an exact rational. -/
def pow2z : ℤ → ℚ
  | Int.ofNat n => (2:ℚ) ^ n
  | Int.negSucc n => 1 / (2:ℚ) ^ (n + 1)

theorem pow2z_eq_zpow (z : ℤ) : pow2z z = (2:ℚ) ^ z := by
  cases z with
  | ofNat n => simp [pow2z]
  | negSucc n =>
    simp only [pow2z, Int.negSucc_eq, one_div]
    rw [zpow_neg, ← zpow_natCast]
    push_cast
    ring_nf

theorem pow2z_pos (z : ℤ) : 0 < pow2z z := by
  rw [pow2z_eq_zpow]; exact zpow_pos (by norm_num) z

theorem pyInt_intCast (n : ℤ) : pyInt (n : ℚ) = n := by
  unfold pyInt; split <;> simp

theorem pyRound_le (q : ℚ) : (pyRound q : ℚ) ≤ q + 1/2 := by
  have h1 : (⌊q⌋ : ℚ) ≤ q := Int.floor_le q
  have h2 : q < ⌊q⌋ + 1 := Int.lt_floor_add_one q
  unfold pyRound
  split_ifs with ha hb hc <;> push_cast <;> linarith

theorem le_pyRound (q : ℚ) : q - 1/2 ≤ (pyRound q : ℚ) := by
  have h1 : (⌊q⌋ : ℚ) ≤ q := Int.floor_le q
  have h2 : q < ⌊q⌋ + 1 := Int.lt_floor_add_one q
  unfold pyRound
  split_ifs with ha hb hc <;> push_cast <;> linarith

theorem abs_pyRound_sub_le (q : ℚ) : |(pyRound q : ℚ) - q| ≤ 1/2 := by
  rw [abs_le]
  constructor
  · linarith [le_pyRound q]
  · linarith [pyRound_le q]

/-- Fuel-based base-2 logarithm (`Nat.log 2`), structurally recursive so
that the kernel can evaluate it on concrete inputs. -/
def natLog2 : ℕ → ℕ → ℕ
  | 0, _ => 0
  | f + 1, n => if n < 2 then 0 else natLog2 f (n / 2) + 1

theorem natLog2_eq (f n : ℕ) (h : n ≤ f) : natLog2 f n = Nat.log 2 n := by
  induction f generalizing n with
  | zero =>
    have : n = 0 := by omega
    subst this
    simp [natLog2]
  | succ f ih =>
    by_cases h2 : n < 2
    · have : Nat.log 2 n = 0 := Nat.log_of_lt h2
      simp [natLog2, h2, this]
    · push_neg at h2
      have hrec : natLog2 (f + 1) n = natLog2 f (n / 2) + 1 := by
        simp [natLog2, Nat.not_lt.mpr h2]
      rw [hrec, ih (n / 2) (by omega), Nat.log_of_one_lt_of_le (by norm_num) h2]

/-- Fuel-based base-2 ceiling logarithm (`Nat.clog 2`). -/
def natClog2 : ℕ → ℕ → ℕ
  | 0, _ => 0
  | f + 1, n => if n ≤ 1 then 0 else natClog2 f ((n + 1) / 2) + 1

theorem natClog2_eq (f n : ℕ) (h : n ≤ f) : natClog2 f n = Nat.clog 2 n := by
  induction f generalizing n with
  | zero =>
    have : n = 0 := by omega
    subst this
    simp [natClog2]
  | succ f ih =>
    by_cases h2 : n ≤ 1
    · have : Nat.clog 2 n = 0 := Nat.clog_of_right_le_one h2 2
      simp [natClog2, h2, this]
    · push_neg at h2
      have hrec : natClog2 (f + 1) n = natClog2 f ((n + 1) / 2) + 1 := by
        simp [natClog2, Nat.not_le.mpr h2]
      rw [hrec, ih ((n + 1) / 2) (by omega),
        Nat.clog_of_two_le (by norm_num) h2]
      have harg : (n + 1) / 2 = (n + 2 - 1) / 2 := by omega
      rw [harg]

/-- `math.ceil(math.log(q, 2))`: the least `z` with `q ≤ 2 ^ z`
(`Int.clog 2`), in a form the kernel can evaluate. -/
def clog2q (q : ℚ) : ℤ :=
  if 1 ≤ q then (natClog2 ⌈q⌉₊ ⌈q⌉₊ : ℤ) else -(natLog2 ⌊q⁻¹⌋₊ ⌊q⁻¹⌋₊ : ℤ)

theorem clog2q_eq (q : ℚ) : clog2q q = Int.clog 2 q := by
  unfold clog2q Int.clog
  split_ifs with h
  · rw [natClog2_eq _ _ le_rfl]
  · rw [natLog2_eq _ _ le_rfl]

/-- `math.floor(math.log(q, 2))`: the greatest `z` with `2 ^ z ≤ q`
(`Int.log 2`), in a form the kernel can evaluate. -/
def flog2q (q : ℚ) : ℤ :=
  if 1 ≤ q then (natLog2 ⌊q⌋₊ ⌊q⌋₊ : ℤ) else -(natClog2 ⌈q⁻¹⌉₊ ⌈q⁻¹⌉₊ : ℤ)

theorem flog2q_eq (q : ℚ) : flog2q q = Int.log 2 q := by
  unfold flog2q Int.log
  split_ifs with h
  · rw [natLog2_eq _ _ le_rfl]
  · rw [natClog2_eq _ _ le_rfl]

/-- Python list slicing `l[a:b]`: negative indices count from the end and
both bounds are clamped into the list. -/
def pyIdxClamp (n : ℕ) (i : ℤ) : ℕ :=
  min ((if i < 0 then i + n else i).toNat) n

def pySlice {α : Type} (l : List α) (a b : ℤ) : List α :=
  (l.take (pyIdxClamp l.length b)).drop (pyIdxClamp l.length a)

theorem pyIdxClamp_of_nonneg {n : ℕ} {i : ℤ} (h0 : 0 ≤ i) (hn : i ≤ n) :
    pyIdxClamp n i = i.toNat := by
  unfold pyIdxClamp
  rw [if_neg (by omega)]
  omega

theorem pySlice_length {α : Type} (l : List α) (a b : ℤ)
    (h0 : 0 ≤ a) (hab : a ≤ b) (hb : b ≤ l.length) :
    (pySlice l a b).length = (b - a).toNat := by
  unfold pySlice
  rw [List.length_drop, List.length_take,
    pyIdxClamp_of_nonneg (le_trans h0 hab) hb,
    pyIdxClamp_of_nonneg h0 (le_trans hab hb)]
  omega

/-! ## Data model -/

/-- Decidable equality for `Except`, so that concrete runs of the
embedded functions can be checked by `decide`. -/
def exceptDecEq {e a : Type} [DecidableEq e] [DecidableEq a] :
    DecidableEq (Except e a) := fun x y =>
  match x, y with
  | .error u, .error v =>
    if h : u = v then isTrue (by rw [h]) else isFalse (fun hh => by cases hh; exact h rfl)
  | .ok u, .ok v =>
    if h : u = v then isTrue (by rw [h]) else isFalse (fun hh => by cases hh; exact h rfl)
  | .error _, .ok _ => isFalse (fun hh => by cases hh)
  | .ok _, .error _ => isFalse (fun hh => by cases hh)

instance {e a : Type} [DecidableEq e] [DecidableEq a] : DecidableEq (Except e a) :=
  exceptDecEq

/-- The read-only capability descriptor consulted by `plan_sweep`
(`device.properties` in the source). -/
structure DeviceProperties where
  FULL_BW : ℚ
  USABLE_BW : ℚ
  MIN_TUNABLE : ℚ
  MAX_TUNABLE : ℚ
  MIN_DECIMATION : ℚ
  MAX_DECIMATION : ℚ
  DECIMATED_USABLE : ℚ
  DC_OFFSET_BW : ℚ
  TUNING_RESOLUTION : ℚ
  deriving DecidableEq, Repr

/-- The `SweepStep` namedtuple: one planned capture configuration. -/
structure SweepStep where
  fcenter : ℚ
  fstep : ℚ
  fshift : ℚ
  decimation : ℤ
  points : ℤ
  bins_skip : ℤ
  bins_run : ℤ
  bins_pass : ℤ
  bins_keep : ℤ
  deriving DecidableEq, Repr

/-! ## The sweep planner (`plan_sweep`, lines 252-404)

Each local variable of the Python function becomes a definition.
`fstart_c`/`fstop_c` are the requested bounds after the clamping at
lines 313-314 (the source reassigns `fstart`/`fstop` in place). -/

def usable2 (prop : DeviceProperties) : ℚ := prop.USABLE_BW / 2

def dc_offset2 (prop : DeviceProperties) : ℚ := prop.DC_OFFSET_BW / 2

def fstart_c (prop : DeviceProperties) (fstart : ℚ) : ℚ :=
  max (prop.MIN_TUNABLE - usable2 prop) fstart

def fstop_c (prop : DeviceProperties) (fstop : ℚ) : ℚ :=
  min (prop.MAX_TUNABLE - dc_offset2 prop) fstop

/-- Line 319: `points = prop.FULL_BW / rbw`. -/
def points_r (prop : DeviceProperties) (rbw : ℚ) : ℚ := prop.FULL_BW / rbw

/-- Line 320: `points = int(max(min_points, 2 ** math.ceil(math.log(points, 2))))`. -/
def points_i (prop : DeviceProperties) (rbw : ℚ) (mp : ℤ) : ℤ :=
  pyInt (max (mp : ℚ) (pow2z (clog2q (points_r prop rbw))))

/-- Line 323: `ideal_decimation = 2 ** math.ceil(math.log(float(points) / max_points, 2))`. -/
def ideal_decimation (prop : DeviceProperties) (rbw : ℚ) (mp Mp : ℤ) : ℚ :=
  pow2z (clog2q ((points_i prop rbw mp : ℚ) / (Mp : ℚ)))

/-- Line 324: `min_decimation = max(2, prop.MIN_DECIMATION)`. -/
def min_decimation (prop : DeviceProperties) : ℚ := max 2 prop.MIN_DECIMATION

/-- Line 325: `max_decimation = 2 ** math.floor(math.log(prop.MAX_DECIMATION, 2))`. -/
def max_decimation (prop : DeviceProperties) : ℚ := pow2z (flog2q prop.MAX_DECIMATION)

/-- Lines 322-328: `decimation` stays 1 unless the number of points required
for the rbw is too large and an acceptable decimation exists. -/
def decimation (prop : DeviceProperties) (rbw : ℚ) (mp Mp : ℤ) : ℚ :=
  if Mp < points_i prop rbw mp ∧
      min_decimation prop ≤ ideal_decimation prop rbw mp Mp then
    min (max_decimation prop) (ideal_decimation prop rbw mp Mp)
  else 1

/-- Line 329: `points /= decimation` (a no-op when `decimation == 1`). -/
def points_d (prop : DeviceProperties) (rbw : ℚ) (mp Mp : ℤ) : ℚ :=
  (points_i prop rbw mp : ℚ) / decimation prop rbw mp Mp

/-- Line 331: `decimation_edge_bins = math.ceil(points * prop.DECIMATED_USABLE / 2.0)`. -/
def decimation_edge_bins (prop : DeviceProperties) (rbw : ℚ) (mp Mp : ℤ) : ℤ :=
  ⌈points_d prop rbw mp Mp * prop.DECIMATED_USABLE / 2⌉

/-- Line 330: `decimated_bw = prop.FULL_BW / decimation`. -/
def decimated_bw (prop : DeviceProperties) (rbw : ℚ) (mp Mp : ℤ) : ℚ :=
  prop.FULL_BW / decimation prop rbw mp Mp

/-- Line 332: `decimation_edge = decimation_edge_bins * decimated_bw / points`. -/
def decimation_edge (prop : DeviceProperties) (rbw : ℚ) (mp Mp : ℤ) : ℚ :=
  (decimation_edge_bins prop rbw mp Mp : ℚ) * decimated_bw prop rbw mp Mp /
    points_d prop rbw mp Mp

/-- Line 334: `bin_size = float(prop.FULL_BW) / decimation / points`. -/
def bin_size (prop : DeviceProperties) (rbw : ℚ) (mp Mp : ℤ) : ℚ :=
  prop.FULL_BW / decimation prop rbw mp Mp / points_d prop rbw mp Mp

/-- Lines 337-349, `left_bin`: first usable FFT bin. -/
def left_bin (prop : DeviceProperties) (rbw : ℚ) (mp Mp : ℤ) : ℤ :=
  if decimation prop rbw mp Mp = 1 then
    ⌈(prop.FULL_BW / 2 - usable2 prop) / bin_size prop rbw mp Mp⌉
  else decimation_edge_bins prop rbw mp Mp

/-- Lines 337-349, `fshift`. -/
def fshift (prop : DeviceProperties) (rbw : ℚ) (mp Mp : ℤ) : ℚ :=
  if decimation prop rbw mp Mp = 1 then 0
  else usable2 prop + decimation_edge prop rbw mp Mp -
    decimated_bw prop rbw mp Mp / 2

/-- Lines 337-349, `wasted_left`. -/
def wasted_left (prop : DeviceProperties) (rbw : ℚ) (mp Mp : ℤ) : ℚ :=
  if decimation prop rbw mp Mp = 1 then
    (left_bin prop rbw mp Mp : ℚ) * bin_size prop rbw mp Mp -
      (prop.FULL_BW / 2 - usable2 prop)
  else 0

/-- Lines 337-349, `usable_bins` before the tuning-resolution snap
(a Python float: `//` on floats yields a float). -/
def usable_bins_f (prop : DeviceProperties) (rbw : ℚ) (mp Mp : ℤ) : ℚ :=
  if decimation prop rbw mp Mp = 1 then
    pyFloorDiv (usable2 prop - dc_offset2 prop - wasted_left prop rbw mp Mp)
      (bin_size prop rbw mp Mp)
  else
    min (points_d prop rbw mp Mp - (decimation_edge_bins prop rbw mp Mp : ℚ) * 2)
      (pyFloorDiv (usable2 prop - dc_offset2 prop) (bin_size prop rbw mp Mp))

/-- Lines 353-354: step size snapped down to the tuning resolution. -/
def step_size (prop : DeviceProperties) (rbw : ℚ) (mp Mp : ℤ) : ℚ :=
  max 1 (pyFloorDiv (usable_bins_f prop rbw mp Mp * bin_size prop rbw mp Mp)
      prop.TUNING_RESOLUTION) * prop.TUNING_RESOLUTION

/-- Line 356: `usable_bins = int(max(1, min(usable_bins, round(step_size / bin_size))))`. -/
def usable_bins (prop : DeviceProperties) (rbw : ℚ) (mp Mp : ℤ) : ℤ :=
  pyInt (max 1 (min (usable_bins_f prop rbw mp Mp)
    ((pyRound (step_size prop rbw mp Mp / bin_size prop rbw mp Mp) : ℤ) : ℚ)))

/-- Line 357: `usable_bw = usable_bins * bin_size`. -/
def usable_bw (prop : DeviceProperties) (rbw : ℚ) (mp Mp : ℤ) : ℚ :=
  (usable_bins prop rbw mp Mp : ℚ) * bin_size prop rbw mp Mp

/-- Lines 360-361: starting center frequency snapped down to the tuning
resolution. -/
def fcenter (prop : DeviceProperties) (fstart rbw : ℚ) (mp Mp : ℤ) : ℚ :=
  ⌊(fstart_c prop fstart + usable2 prop - wasted_left prop rbw mp Mp) /
      prop.TUNING_RESOLUTION⌋ * prop.TUNING_RESOLUTION

/-- Lines 362-363: `bins_pass = int(round((fstart - (fcenter - usable2 + wasted_left)) / bin_size))`. -/
def bins_pass (prop : DeviceProperties) (fstart rbw : ℚ) (mp Mp : ℤ) : ℤ :=
  pyRound ((fstart_c prop fstart -
    (fcenter prop fstart rbw mp Mp - usable2 prop + wasted_left prop rbw mp Mp)) /
    bin_size prop rbw mp Mp)

/-- Line 365: the achieved `fstart`. -/
def fstart_a (prop : DeviceProperties) (fstart rbw : ℚ) (mp Mp : ℤ) : ℚ :=
  fcenter prop fstart rbw mp Mp -
    bin_size prop rbw mp Mp * (points_d prop rbw mp Mp / 2 -
      (left_bin prop rbw mp Mp : ℚ) - (bins_pass prop fstart rbw mp Mp : ℚ)) -
    fshift prop rbw mp Mp

/-- Line 368: `step_limit = (prop.MAX_TUNABLE - fcenter) // step_size`. -/
def step_limit (prop : DeviceProperties) (fstart rbw : ℚ) (mp Mp : ℤ) : ℚ :=
  pyFloorDiv (prop.MAX_TUNABLE - fcenter prop fstart rbw mp Mp)
    (step_size prop rbw mp Mp)

/-- Lines 369-370: `right0 = fcenter - (usable2 - usable_bw - wasted_left)`. -/
def right0 (prop : DeviceProperties) (fstart rbw : ℚ) (mp Mp : ℤ) : ℚ :=
  fcenter prop fstart rbw mp Mp -
    (usable2 prop - usable_bw prop rbw mp Mp - wasted_left prop rbw mp Mp)

/-- Line 371: `steps = 1 + round((float(fstop) - right0) / step_size)`. -/
def steps_n (prop : DeviceProperties) (fstart fstop rbw : ℚ) (mp Mp : ℤ) : ℤ :=
  1 + pyRound ((fstop_c prop fstop - right0 prop fstart rbw mp Mp) /
    step_size prop rbw mp Mp)

/-- Lines 373-376: bins kept from the final (possibly partial) step. -/
def right_bins (prop : DeviceProperties) (fstart fstop rbw : ℚ) (mp Mp : ℤ) : ℤ :=
  let rb0 := pyRound ((usable_bins prop rbw mp Mp : ℚ) *
    (pyMod (fstop_c prop fstop - right0 prop fstart rbw mp Mp)
        (step_size prop rbw mp Mp) / step_size prop rbw mp Mp))
  if rb0 = 0 then usable_bins prop rbw mp Mp else rb0

/-- Lines 372-380: `bins_keep` (a Python float in the truncated branch). -/
def bins_keep_f (prop : DeviceProperties) (fstart fstop rbw : ℚ) (mp Mp : ℤ) : ℚ :=
  if (steps_n prop fstart fstop rbw mp Mp : ℚ) ≤ step_limit prop fstart rbw mp Mp then
    (usable_bins prop rbw mp Mp : ℚ) *
        ((steps_n prop fstart fstop rbw mp Mp : ℚ) - 1) -
      (bins_pass prop fstart rbw mp Mp : ℚ) +
      (right_bins prop fstart fstop rbw mp Mp : ℚ)
  else
    (usable_bins prop rbw mp Mp : ℚ) * step_limit prop fstart rbw mp Mp -
      (bins_pass prop fstart rbw mp Mp : ℚ)

/-- Lines 383-384: the achieved `fstop`. -/
def fstop_a (prop : DeviceProperties) (fstart fstop rbw : ℚ) (mp Mp : ℤ) : ℚ :=
  pyFloorDiv (bins_keep_f prop fstart fstop rbw mp Mp +
      (bins_pass prop fstart rbw mp Mp : ℚ) - 1) (usable_bins prop rbw mp Mp : ℚ) *
      step_size prop rbw mp Mp +
    (pyMod (bins_keep_f prop fstart fstop rbw mp Mp +
        (bins_pass prop fstart rbw mp Mp : ℚ) - 1) (usable_bins prop rbw mp Mp : ℚ) + 1) *
      bin_size prop rbw mp Mp +
    fstart_a prop fstart rbw mp Mp

/-- Lines 392-402: the emitted `SweepStep`. -/
def plan_step (prop : DeviceProperties) (fstart fstop rbw : ℚ) (mp Mp : ℤ) : SweepStep :=
  { fcenter := fcenter prop fstart rbw mp Mp
    fstep := step_size prop rbw mp Mp
    fshift := fshift prop rbw mp Mp
    decimation := pyInt (decimation prop rbw mp Mp)
    points := pyInt (points_d prop rbw mp Mp)
    bins_skip := left_bin prop rbw mp Mp
    bins_run := usable_bins prop rbw mp Mp
    bins_pass := bins_pass prop fstart rbw mp Mp
    bins_keep := pyInt (bins_keep_f prop fstart fstop rbw mp Mp) }

/-- `plan_sweep(device, fstart, fstop, rbw, min_points, max_points)`.

The guards reproduce, in source order, every place the Python code can
raise: the divisions and `math.log` domain errors at lines 319-334 and
353, and the `assert` statements at lines 386-391. -/
def plan_sweep (prop : DeviceProperties) (fstart fstop rbw : ℚ) (mp Mp : ℤ) :
    Except String (ℚ × ℚ × List SweepStep) :=
  if fstop_c prop fstop ≤ fstart_c prop fstart then
    .ok (fstart_c prop fstart, fstart_c prop fstart, [])
  else if rbw = 0 then .error "ZeroDivisionError: float division by zero"
  else if points_r prop rbw ≤ 0 then .error "ValueError: math domain error"
  else if Mp = 0 then .error "ZeroDivisionError: division by zero"
  else if (points_i prop rbw mp : ℚ) / (Mp : ℚ) ≤ 0 then
    .error "ValueError: math domain error"
  else if prop.MAX_DECIMATION ≤ 0 then .error "ValueError: math domain error"
  else if points_d prop rbw mp Mp = 0 then
    .error "ZeroDivisionError: float division by zero"
  else if bin_size prop rbw mp Mp = 0 then
    .error "ZeroDivisionError: float division by zero"
  else if prop.TUNING_RESOLUTION = 0 then
    .error "ZeroDivisionError: float floor division by zero"
  else if ¬ pyMod (fcenter prop fstart rbw mp Mp) prop.TUNING_RESOLUTION = 0 then
    .error "AssertionError: fcenter"
  else if ¬ (0 < step_size prop rbw mp Mp ∧
      pyMod (step_size prop rbw mp Mp) prop.TUNING_RESOLUTION = 0) then
    .error "AssertionError: step_size"
  else if ¬ (0 < decimation prop rbw mp Mp ∧
      (pyInt (decimation prop rbw mp Mp) : ℚ) = decimation prop rbw mp Mp) then
    .error "AssertionError: decimation"
  else if ¬ (0 < points_d prop rbw mp Mp ∧
      (pyInt (points_d prop rbw mp Mp) : ℚ) = points_d prop rbw mp Mp) then
    .error "AssertionError: points"
  else if ¬ 0 < left_bin prop rbw mp Mp then .error "AssertionError: left_bin"
  else if ¬ 0 < usable_bins prop rbw mp Mp then .error "AssertionError: usable_bins"
  else
    .ok (fstart_a prop fstart rbw mp Mp, fstop_a prop fstart fstop rbw mp Mp,
      [plan_step prop fstart fstop rbw mp Mp])

/-! ## Sweep entries (`SweepStep.to_sweep_entry`, lines 34-58) -/

/-- The hardware sweep-entry record produced by `to_sweep_entry`. -/
structure SweepEntryM where
  fstart : ℚ
  fstop : ℚ
  fstep : ℚ
  fshift : ℚ
  decimation : ℤ
  spp : ℤ
  ppb : ℤ
  deriving DecidableEq, Repr

/-- The `steps` property (lines 55-58): `math.ceil((bins_keep + bins_pass) / bins_run)`,
raising `ZeroDivisionError` when `bins_run == 0`. -/
def stepsOf (ss : SweepStep) : Except String ℤ :=
  if ss.bins_run = 0 then .error "ZeroDivisionError: float division by zero"
  else .ok ⌈((ss.bins_keep : ℚ) + (ss.bins_pass : ℚ)) / (ss.bins_run : ℚ)⌉

/-- `SweepStep.to_sweep_entry` (lines 34-53): refuses captures larger than
`32*1024` points before anything else. -/
def to_sweep_entry (prop : DeviceProperties) (ss : SweepStep) :
    Except String SweepEntryM :=
  if 32 * 1024 < ss.points then .error "large captures not yet supported"
  else
    match stepsOf ss with
    | .error e => .error e
    | .ok st =>
      .ok { fstart := ss.fcenter
            fstop := min (ss.fcenter + ((st : ℚ) + 1/2) * ss.fstep) prop.MAX_TUNABLE
            fstep := ss.fstep
            fshift := ss.fshift
            decimation := ss.decimation
            spp := ss.points
            ppb := 1 }

/-! ## The sweep execution engine (`SweepDevice`, lines 66-248)

The engine is modelled as a state machine.  `compute_fft` is an external
collaborator, so a data packet carries the sequence of power values that
collaborator would extract; a context packet carries the decoded field
mapping.  Packet byte size is `packet.size * 4` as in the source.
`vrt_context` exists from construction (in Python it is created by
`_start_sweep`; packets are only ever received after a sweep starts, and
every start resets the context to empty). -/

/-- Decoded VRT context fields relevant to the engine (`None` = absent). -/
structure CtxFields where
  sweepid : Option ℕ
  reflevel : Option ℚ
  rffreq : Option ℚ
  deriving DecidableEq, Repr

/-- `dict.update`: last writer per key wins. -/
def mergeCtx (old upd : CtxFields) : CtxFields :=
  { sweepid := match upd.sweepid with | some v => some v | none => old.sweepid
    reflevel := match upd.reflevel with | some v => some v | none => old.reflevel
    rffreq := match upd.rffreq with | some v => some v | none => old.rffreq }

/-- A received VRT packet: context (metadata) or data (with the power
values the FFT collaborator extracts from its payload). -/
inductive Packet
  | context (size : ℕ) (fields : CtxFields)
  | data (size : ℕ) (powData : List ℚ)
  deriving DecidableEq, Repr

/-- Result tuple `(fstart, fstop, bins)`. -/
abbrev SweepResult := ℚ × ℚ × List ℚ

/-- Hardware commands issued through `real_device`. -/
inductive HwAction
  | abort
  | flush
  | requestReadPerm
  | sweepClear
  | sweepAdd (e : SweepEntryM)
  | sweepIterations (n : ℕ)
  | sweepStart (id : ℕ)
  deriving DecidableEq, Repr

/-- Mutable state of a `SweepDevice` (the `SweepSession` of the spec). -/
structure SweepState where
  sweep_id : ℕ
  prev_sweep_id : Option ℕ
  vrt_context : CtxFields
  ss_index : Option ℕ
  ss_received : ℤ
  bins : List ℚ
  continuous : Bool
  asyncMode : Bool
  plan : List SweepStep
  fstart : ℚ
  fstop : ℚ
  context_bytes_received : ℕ
  data_bytes_received : ℕ
  data_bytes_processed : ℤ
  martian_bytes_discarded : ℕ
  past_end_bytes_discarded : ℕ
  deriving DecidableEq, Repr

/-- `SweepDevice._vrt_receive` (lines 181-248) as a pure transition:
given a state and one packet it produces the new state, the result
delivered by this call (blocking return or async callback argument),
and the hardware commands issued. -/
def vrtReceive (s : SweepState) (p : Packet) :
    Except String (SweepState × Option SweepResult × List HwAction) :=
  match p with
  | .context n fields =>
    .ok ({ s with
            vrt_context := mergeCtx s.vrt_context fields,
            context_bytes_received := s.context_bytes_received + n * 4 }, none, [])
  | .data n powData =>
    let nb := n * 4
    let s1 := { s with data_bytes_received := s.data_bytes_received + nb }
    if s1.vrt_context.sweepid = some s1.sweep_id then
      -- WORKAROUND for 5K not always sending reflevel (lines 197-199)
      let s2 := { s1 with vrt_context :=
        { s1.vrt_context with reflevel := some (s1.vrt_context.reflevel.getD 0) } }
      match s2.vrt_context.rffreq with
      | none => .error "KeyError: rffreq"
      | some _ =>
        match s2.ss_index with
        | none =>
          .ok ({ s2 with past_end_bytes_discarded :=
            s2.past_end_bytes_discarded + nb }, none, [])
        | some i =>
          match s2.plan[i]? with
          | none => .error "IndexError: list index out of range"
          | some ss =>
            let pass_now : ℤ := if s2.ss_received = 0 then ss.bins_pass else 0
            let take : ℤ :=
              min (ss.bins_run - pass_now) (ss.bins_keep - s2.ss_received)
            let start : ℤ := ss.bins_skip + pass_now
            let s3 := { s2 with
              bins := s2.bins ++ pySlice powData start (start + take),
              ss_received := s2.ss_received + take,
              data_bytes_processed := s2.data_bytes_processed + take * 4 }
            if s3.ss_received < ss.bins_keep then .ok (s3, none, [])
            else
              let s4 := { s3 with ss_received := 0, ss_index := some (i + 1) }
              if i + 1 < s4.plan.length then .ok (s4, none, [])
              else
                -- complete sweep (lines 233-248)
                let s5 := if s4.continuous then s4 else { s4 with ss_index := none }
                let acts : List HwAction :=
                  if s4.continuous then [] else [.abort, .flush]
                if s5.asyncMode then
                  if s5.continuous then
                    .ok ({ s5 with ss_index := some 0, ss_received := 0, bins := [] },
                      some (s5.fstart, s5.fstop, s5.bins), acts)
                  else .ok (s5, some (s5.fstart, s5.fstop, s5.bins), acts)
                else .ok (s5, some (s5.fstart, s5.fstop, s5.bins), acts)
    else if s1.vrt_context.sweepid = s1.prev_sweep_id then
      .ok ({ s1 with past_end_bytes_discarded :=
        s1.past_end_bytes_discarded + nb }, none, [])
    else
      .ok ({ s1 with martian_bytes_discarded :=
        s1.martian_bytes_discarded + nb }, none, [])

/-- The blocking receive loop of `_perform_full_sweep` (lines 160-163):
feed packets until a result is produced. -/
def feedSync (s : SweepState) :
    List Packet → Except String (SweepState × Option SweepResult)
  | [] => .ok (s, none)
  | p :: ps =>
    match vrtReceive s p with
    | .error e => .error e
    | .ok (s1, none, _) => feedSync s1 ps
    | .ok (s1, some r, _) => .ok (s1, some r)

/-- The async receive loop: every packet is delivered to the callback
handler; results accumulate in order. -/
def feedCont (s : SweepState) :
    List Packet → Except String (SweepState × List SweepResult)
  | [] => .ok (s, [])
  | p :: ps =>
    match vrtReceive s p with
    | .error e => .error e
    | .ok (s1, res, _) =>
      match feedCont s1 ps with
      | .error e => .error e
      | .ok (sf, rs) => .ok (sf, res.toList ++ rs)

/-- `SweepDevice._start_sweep` (lines 165-179). -/
def startSweep (s : SweepState) (entries : List SweepEntryM) :
    SweepState × List HwAction :=
  let newId := (s.sweep_id + 1) % 2 ^ 32
  ({ s with
      prev_sweep_id := some s.sweep_id,
      sweep_id := newId,
      vrt_context := { sweepid := none, reflevel := none, rffreq := none },
      ss_index := some 0,
      ss_received := 0,
      bins := [] },
   [.abort, .flush, .sweepClear] ++ entries.map HwAction.sweepAdd ++
     [.sweepIterations (if s.continuous then 0 else 1), .sweepStart newId])

/-- `SweepDevice.capture_power_spectrum` up to the point where packets
start arriving (lines 103-159): the continuous/async check, the initial
abort/flush/read-permission sequence, planning, sweep-entry conversion,
and `_start_sweep`.  Returns the issued hardware commands and either an
error, or the new state together with the immediately-delivered result
for an empty plan. -/
def captureSetup (prop : DeviceProperties) (s : SweepState)
    (fstart fstop rbw : ℚ) (cont : Bool) (mp Mp : ℤ) :
    List HwAction × Except String (SweepState × Option SweepResult) :=
  if cont ∧ ¬ s.asyncMode then
    ([], .error "continuous mode only applies to async operation")
  else
    let s0 := { s with continuous := cont }
    let acts0 : List HwAction := [.abort, .flush, .requestReadPerm]
    match plan_sweep prop fstart fstop rbw mp Mp with
    | .error e => (acts0, .error e)
    | .ok (fs, ft, plan) =>
      let s1 := { s0 with fstart := fs, fstop := ft, plan := plan }
      match plan.mapM (to_sweep_entry prop) with
      | .error e => (acts0, .error e)
      | .ok entries =>
        if plan.isEmpty then (acts0, .ok (s1, some (fs, ft, [])))
        else
          let s2a := startSweep s1 entries
          (acts0 ++ s2a.2, .ok (s2a.1, none))

/-- The state of a freshly-constructed `SweepDevice` (lines 77-99):
`_sweep_id` is the constructor's random id, `_prev_sweep_id` is `None`. -/
def initState (sid : ℕ) (async : Bool) : SweepState :=
  { sweep_id := sid,
    prev_sweep_id := none
    vrt_context := { sweepid := none, reflevel := none, rffreq := none }
    ss_index := none
    ss_received := 0
    bins := []
    continuous := false
    asyncMode := async
    plan := []
    fstart := 0
    fstop := 0
    context_bytes_received := 0
    data_bytes_received := 0
    data_bytes_processed := 0
    martian_bytes_discarded := 0
    past_end_bytes_discarded := 0 }

/-! ## Planner lemmas -/

/-- Inverting a successful planning run that produced a step: the result
components, and every guard and `assert` that the run passed. -/
theorem plan_sweep_ok_inv {prop : DeviceProperties} {fstart fstop rbw : ℚ}
    {mp Mp : ℤ} {fs ft : ℚ} {st : SweepStep} {l : List SweepStep}
    (h : plan_sweep prop fstart fstop rbw mp Mp = .ok (fs, ft, st :: l)) :
    fs = fstart_a prop fstart rbw mp Mp ∧
    ft = fstop_a prop fstart fstop rbw mp Mp ∧
    st = plan_step prop fstart fstop rbw mp Mp ∧ l = [] ∧
    fstart_c prop fstart < fstop_c prop fstop ∧
    rbw ≠ 0 ∧ 0 < points_r prop rbw ∧ Mp ≠ 0 ∧
    0 < (points_i prop rbw mp : ℚ) / (Mp : ℚ) ∧
    0 < prop.MAX_DECIMATION ∧
    bin_size prop rbw mp Mp ≠ 0 ∧
    prop.TUNING_RESOLUTION ≠ 0 ∧
    pyMod (fcenter prop fstart rbw mp Mp) prop.TUNING_RESOLUTION = 0 ∧
    0 < step_size prop rbw mp Mp ∧
    pyMod (step_size prop rbw mp Mp) prop.TUNING_RESOLUTION = 0 ∧
    0 < decimation prop rbw mp Mp ∧
    (pyInt (decimation prop rbw mp Mp) : ℚ) = decimation prop rbw mp Mp ∧
    0 < points_d prop rbw mp Mp ∧
    (pyInt (points_d prop rbw mp Mp) : ℚ) = points_d prop rbw mp Mp ∧
    0 < left_bin prop rbw mp Mp ∧
    0 < usable_bins prop rbw mp Mp := by
  unfold plan_sweep at h
  by_cases h1 : fstop_c prop fstop ≤ fstart_c prop fstart
  · rw [if_pos h1] at h
    exact absurd h (by simp)
  rw [if_neg h1] at h
  by_cases h2 : rbw = 0
  · rw [if_pos h2] at h; exact Except.noConfusion h
  rw [if_neg h2] at h
  by_cases h3 : points_r prop rbw ≤ 0
  · rw [if_pos h3] at h; exact Except.noConfusion h
  rw [if_neg h3] at h
  by_cases h4 : Mp = 0
  · rw [if_pos h4] at h; exact Except.noConfusion h
  rw [if_neg h4] at h
  by_cases h5 : (points_i prop rbw mp : ℚ) / (Mp : ℚ) ≤ 0
  · rw [if_pos h5] at h; exact Except.noConfusion h
  rw [if_neg h5] at h
  by_cases h6 : prop.MAX_DECIMATION ≤ 0
  · rw [if_pos h6] at h; exact Except.noConfusion h
  rw [if_neg h6] at h
  by_cases h7 : points_d prop rbw mp Mp = 0
  · rw [if_pos h7] at h; exact Except.noConfusion h
  rw [if_neg h7] at h
  by_cases h8 : bin_size prop rbw mp Mp = 0
  · rw [if_pos h8] at h; exact Except.noConfusion h
  rw [if_neg h8] at h
  by_cases h9 : prop.TUNING_RESOLUTION = 0
  · rw [if_pos h9] at h; exact Except.noConfusion h
  rw [if_neg h9] at h
  by_cases h10 : pyMod (fcenter prop fstart rbw mp Mp) prop.TUNING_RESOLUTION = 0
  swap
  · rw [if_pos h10] at h; exact Except.noConfusion h
  rw [if_neg (not_not_intro h10)] at h
  by_cases h11 : 0 < step_size prop rbw mp Mp ∧
      pyMod (step_size prop rbw mp Mp) prop.TUNING_RESOLUTION = 0
  swap
  · rw [if_pos h11] at h; exact Except.noConfusion h
  rw [if_neg (not_not_intro h11)] at h
  by_cases h12 : 0 < decimation prop rbw mp Mp ∧
      (pyInt (decimation prop rbw mp Mp) : ℚ) = decimation prop rbw mp Mp
  swap
  · rw [if_pos h12] at h; exact Except.noConfusion h
  rw [if_neg (not_not_intro h12)] at h
  by_cases h13 : 0 < points_d prop rbw mp Mp ∧
      (pyInt (points_d prop rbw mp Mp) : ℚ) = points_d prop rbw mp Mp
  swap
  · rw [if_pos h13] at h; exact Except.noConfusion h
  rw [if_neg (not_not_intro h13)] at h
  by_cases h14 : 0 < left_bin prop rbw mp Mp
  swap
  · rw [if_pos h14] at h; exact Except.noConfusion h
  rw [if_neg (not_not_intro h14)] at h
  by_cases h15 : 0 < usable_bins prop rbw mp Mp
  swap
  · rw [if_pos h15] at h; exact Except.noConfusion h
  rw [if_neg (not_not_intro h15)] at h
  simp only [Except.ok.injEq, Prod.mk.injEq, List.cons.injEq] at h
  obtain ⟨hfs, hft, hst, hl⟩ := h
  exact ⟨hfs.symm, hft.symm, hst.symm, hl.symm, not_le.mp h1, h2, not_le.mp h3,
    h4, not_le.mp h5, not_le.mp h6, h8, h9, h10, h11.1, h11.2, h12.1, h12.2,
    h13.1, h13.2, h14, h15⟩

/-- Line 365 in closed form: in both the undecimated and the decimated
branch, the achieved start equals the start of the first usable bin
(`fcenter - usable2 + wasted_left`) plus `bins_pass` bins. -/
theorem fstart_a_eq (prop : DeviceProperties) (fstart rbw : ℚ) (mp Mp : ℤ)
    (hdec : decimation prop rbw mp Mp ≠ 0)
    (hpts : points_d prop rbw mp Mp ≠ 0) :
    fstart_a prop fstart rbw mp Mp =
      fcenter prop fstart rbw mp Mp - usable2 prop + wasted_left prop rbw mp Mp +
        (bins_pass prop fstart rbw mp Mp : ℚ) * bin_size prop rbw mp Mp := by
  have hbs : bin_size prop rbw mp Mp * points_d prop rbw mp Mp =
      prop.FULL_BW / decimation prop rbw mp Mp := by
    unfold bin_size
    field_simp
    ring
  by_cases hd : decimation prop rbw mp Mp = 1
  · have hbs1 : bin_size prop rbw mp Mp * points_d prop rbw mp Mp =
        prop.FULL_BW := by rw [hbs, hd, div_one]
    unfold fstart_a fshift wasted_left
    rw [if_pos hd, if_pos hd]
    linear_combination (-(1/2 : ℚ)) * hbs1
  · have hde : decimation_edge prop rbw mp Mp =
        (decimation_edge_bins prop rbw mp Mp : ℚ) * bin_size prop rbw mp Mp := by
      unfold decimation_edge decimated_bw
      rw [← hbs]
      field_simp
      ring
    unfold fstart_a fshift wasted_left left_bin
    rw [if_neg hd, if_neg hd, if_neg hd, hde]
    unfold decimated_bw
    linear_combination (-(1/2 : ℚ)) * hbs

/-- Claim C1 (amended).  For every capability descriptor with positive
full bandwidth: whenever the clamped range is empty, `plan_sweep`
returns an empty plan with `fstart' == fstop'`; whenever the plan
contains a step, the achieved `fstart'` lies within half a bin of the
clamped requested `fstart` (so it may exceed the requested start by up
to half a bin — the original `fstart' ≤ fstart ≤ fstop ≤ fstop'` chain
does not hold, see the counterexample). -/
theorem claim_C1 (prop : DeviceProperties) (fstart fstop rbw : ℚ) (mp Mp : ℤ)
    (hbw : 0 < prop.FULL_BW) :
    (fstop_c prop fstop ≤ fstart_c prop fstart →
      plan_sweep prop fstart fstop rbw mp Mp =
        .ok (fstart_c prop fstart, fstart_c prop fstart, [])) ∧
    (∀ fs ft st l, plan_sweep prop fstart fstop rbw mp Mp = .ok (fs, ft, st :: l) →
      |fs - fstart_c prop fstart| ≤
        prop.FULL_BW / ((st.decimation : ℚ) * (st.points : ℚ)) / 2) := by
  constructor
  · intro hle
    unfold plan_sweep
    rw [if_pos hle]
  · intro fs ft st l h
    obtain ⟨hfs, hft, hst, hl, hlt, hrbw, hpr, hMp, hratio, hmaxdec, hbsne, hTR,
      hmodf, hstepp, hmods, hdp, hdi, hpp, hpi, hlb, hub⟩ := plan_sweep_ok_inv h
    have hdne : decimation prop rbw mp Mp ≠ 0 := ne_of_gt hdp
    have hpne : points_d prop rbw mp Mp ≠ 0 := ne_of_gt hpp
    have hbspos : 0 < bin_size prop rbw mp Mp := by
      unfold bin_size
      exact div_pos (div_pos hbw hdp) hpp
    subst hfs hst
    have hsd : ((plan_step prop fstart fstop rbw mp Mp).decimation : ℚ) =
        decimation prop rbw mp Mp := hdi
    have hsp : ((plan_step prop fstart fstop rbw mp Mp).points : ℚ) =
        points_d prop rbw mp Mp := hpi
    rw [hsd, hsp, fstart_a_eq prop fstart rbw mp Mp hdne hpne]
    have hrhs : prop.FULL_BW / (decimation prop rbw mp Mp * points_d prop rbw mp Mp) / 2 =
        bin_size prop rbw mp Mp / 2 := by
      unfold bin_size
      rw [div_div, div_div, div_div, mul_assoc]
    rw [hrhs]
    set bs := bin_size prop rbw mp Mp with hbs
    set D := fstart_c prop fstart - (fcenter prop fstart rbw mp Mp - usable2 prop +
      wasted_left prop rbw mp Mp) with hD
    have hbp : bins_pass prop fstart rbw mp Mp = pyRound (D / bs) := rfl
    have hexp : fcenter prop fstart rbw mp Mp - usable2 prop +
        wasted_left prop rbw mp Mp +
        (bins_pass prop fstart rbw mp Mp : ℚ) * bs - fstart_c prop fstart =
        ((pyRound (D / bs) : ℚ) - D / bs) * bs := by
      rw [hbp]
      field_simp
      ring
    rw [hexp, abs_mul, abs_of_pos hbspos]
    have hr := abs_pyRound_sub_le (D / bs)
    calc |(pyRound (D / bs) : ℚ) - D / bs| * bs ≤ (1/2) * bs := by
          exact mul_le_mul_of_nonneg_right hr (le_of_lt hbspos)
      _ = bs / 2 := by ring

/-- Counterexample descriptor for claim C1 (the spec's own concrete
scenario descriptor: 125 MHz filter, 100 MHz usable, 100 kHz tuning
resolution). -/
def c1prop : DeviceProperties := {
  FULL_BW := 125000000, USABLE_BW := 100000000,
  MIN_TUNABLE := 100000000, MAX_TUNABLE := 8000000000,
  MIN_DECIMATION := 4, MAX_DECIMATION := 1024,
  DECIMATED_USABLE := 1/2, DC_OFFSET_BW := 0, TUNING_RESOLUTION := 100000 }

def c1step : SweepStep := {
  fcenter := 2549900000, fstep := 49900000, fshift := 0, decimation := 1,
  points := 1024, bins_skip := 103, bins_run := 409, bins_pass := 1,
  bins_keep := -327 }

/-- Counterexample to claim C1 as stated: for the request
`fstart = 2 500 070 000`, `fstop = 2 510 070 000` (both inside the
clamped tunable range) with `rbw = 125 MHz / 1024`, `plan_sweep`
returns a one-step plan whose achieved `fstart' = 2 500 095 312.5`
EXCEEDS the requested `fstart` (the `round()` at line 362 rounds
`bins_pass` up), and whose achieved `fstop' = 2 460 327 148.4375 is
BELOW the requested `fstop`.  So neither `fstart' ≤ fstart` nor
`fstop ≤ fstop'` holds. -/
theorem claim_C1_cex :
    plan_sweep c1prop 2500070000 2510070000 (125000000/1024) 128 8192 =
      .ok (5000190625/2, 39365234375/16, [c1step]) ∧
    (2500070000 : ℚ) < 5000190625/2 ∧
    (39365234375/16 : ℚ) < 2510070000 := by
  refine ⟨by decide, by norm_num, by norm_num⟩

/-- Witness for claim C1 at the counterexample input: the amended
half-a-bin bound holds there. -/
theorem claim_C1_witness :
    (0 : ℚ) < c1prop.FULL_BW ∧
    |(5000190625/2 : ℚ) - fstart_c c1prop 2500070000| ≤
      c1prop.FULL_BW / ((c1step.decimation : ℚ) * (c1step.points : ℚ)) / 2 :=
  ⟨by norm_num [c1prop],
    (claim_C1 c1prop 2500070000 2510070000 (125000000/1024) 128 8192
      (by norm_num [c1prop])).2 (5000190625/2) (39365234375/16) c1step []
      (by decide)⟩

theorem clog2q_nonneg {q : ℚ} (h : 1 ≤ q) : 0 ≤ clog2q q := by
  rw [clog2q_eq]
  calc (0 : ℤ) = Int.clog 2 (1 : ℚ) := (Int.clog_one_right 2).symm
    _ ≤ Int.clog 2 q := Int.clog_mono_right one_pos h

theorem pow2z_toNat {z : ℤ} (h : 0 ≤ z) : pow2z z = ((2 ^ z.toNat : ℤ) : ℚ) := by
  rw [pow2z_eq_zpow]
  conv_lhs => rw [← Int.toNat_of_nonneg h]
  rw [zpow_natCast]
  push_cast
  ring

theorem pow2z_mono {a b : ℤ} (h : a ≤ b) : pow2z a ≤ pow2z b := by
  rw [pow2z_eq_zpow, pow2z_eq_zpow]
  exact zpow_le_zpow_right₀ (by norm_num) h

/-- Line 320 in closed form: when `FULL_BW / rbw ≥ 1`, the computed point
count is `max(min_points, 2 ** ceil(log2(FULL_BW / rbw)))` — the
power-of-two rounding applies to `FULL_BW / rbw` only, before the `max`. -/
theorem points_i_eq (prop : DeviceProperties) (rbw : ℚ) (mp : ℤ)
    (hr : 1 ≤ points_r prop rbw) :
    points_i prop rbw mp = max mp (2 ^ (Int.clog 2 (points_r prop rbw)).toNat) := by
  unfold points_i
  have hk : 0 ≤ clog2q (points_r prop rbw) := clog2q_nonneg hr
  rw [pow2z_toNat hk, ← Int.cast_max, pyInt_intCast, clog2q_eq]

/-- Claim C4 (amended).  For every request with `FULL_BW / rbw ≥ 1`, the
point count carried by the emitted step times its decimation (i.e. the
point count before the decimation adjustment at line 329) equals
`max(min_points, P)` where `P = 2 ^ ⌈log₂(FULL_BW / rbw)⌉` is the
smallest power of two that is at least `FULL_BW / rbw` — NOT the
smallest power of two at least `max(min_points, FULL_BW / rbw)`: the
`max` with `min_points` is applied after the power-of-two rounding, so
a non-power-of-two `min_points` is used as-is (see the counterexample). -/
theorem claim_C4 (prop : DeviceProperties) (fstart fstop rbw : ℚ) (mp Mp : ℤ)
    (hr : 1 ≤ points_r prop rbw) :
    ∀ fs ft st l, plan_sweep prop fstart fstop rbw mp Mp = .ok (fs, ft, st :: l) →
      st.points * st.decimation =
        max mp (2 ^ (Int.clog 2 (points_r prop rbw)).toNat) ∧
      points_r prop rbw ≤ ((2 ^ (Int.clog 2 (points_r prop rbw)).toNat : ℤ) : ℚ) ∧
      ∀ k : ℕ, points_r prop rbw ≤ (2 : ℚ) ^ k →
        (Int.clog 2 (points_r prop rbw)).toNat ≤ k := by
  intro fs ft st l h
  obtain ⟨_, _, hst, _, _, _, hpr, _, _, _, _, _, _, _, _, hdp, hdi, hpp, hpi,
    _, _⟩ := plan_sweep_ok_inv h
  have h0 : (0 : ℚ) < points_r prop rbw := lt_of_lt_of_le one_pos hr
  have hk : 0 ≤ Int.clog 2 (points_r prop rbw) := by
    rw [← clog2q_eq]; exact clog2q_nonneg hr
  refine ⟨?_, ?_, ?_⟩
  · have hdne : decimation prop rbw mp Mp ≠ 0 := ne_of_gt hdp
    have hcast : ((st.points * st.decimation : ℤ) : ℚ) =
        (points_i prop rbw mp : ℚ) := by
      subst hst
      show ((pyInt (points_d prop rbw mp Mp) *
        pyInt (decimation prop rbw mp Mp) : ℤ) : ℚ) = _
      push_cast
      rw [hpi, hdi]
      unfold points_d
      field_simp
    have := Int.cast_injective (α := ℚ) hcast
    rw [this, points_i_eq prop rbw mp hr]
  · have h1 := Int.self_le_zpow_clog (b := 2) (by norm_num) (points_r prop rbw)
    rw [← Int.toNat_of_nonneg hk, zpow_natCast] at h1
    calc points_r prop rbw ≤ (2 : ℚ) ^ (Int.clog 2 (points_r prop rbw)).toNat := h1
      _ = ((2 ^ (Int.clog 2 (points_r prop rbw)).toNat : ℤ) : ℚ) := by push_cast; ring
  · intro k hk2
    have hz : points_r prop rbw ≤ (2 : ℚ) ^ (k : ℤ) := by
      rw [zpow_natCast]; exact hk2
    have := (Int.le_zpow_iff_clog_le (b := 2) (by norm_num) h0).mp hz
    omega

def c4prop : DeviceProperties := {
  FULL_BW := 125000000, USABLE_BW := 100000000,
  MIN_TUNABLE := 100000000, MAX_TUNABLE := 8000000000,
  MIN_DECIMATION := 4, MAX_DECIMATION := 1024,
  DECIMATED_USABLE := 1/2, DC_OFFSET_BW := 0, TUNING_RESOLUTION := 100000 }

def c4step : SweepStep := {
  fcenter := 2449400000, fstep := 49400000, fshift := 0, decimation := 1,
  points := 96, bins_skip := 10, bins_run := 38, bins_pass := 0,
  bins_keep := 116 }

/-- Counterexample to claim C4 as stated: with `min_points = 96` and
`FULL_BW / rbw = 64`, the planned step has `points = 96` (the source
takes `max(min_points, 2**ceil(log2(64))) = max(96, 64) = 96`), but the
smallest power of two that is `≥ max(min_points, FULL_BW/rbw) = 96` is
`128`. -/
theorem claim_C4_cex :
    plan_sweep c4prop 2400000000 2600000000 1953125 96 8192 =
      .ok (7199762500/3, 2550725000, [c4step]) ∧
    c4step.points = 96 ∧
    (2 : ℤ) ^ (Int.clog 2 (max (96 : ℚ) (points_r c4prop 1953125))).toNat = 128 ∧
    (96 : ℤ) ≠ 128 := by
  refine ⟨by decide, rfl, ?_, by decide⟩
  rw [← clog2q_eq]
  decide

def c4wstep : SweepStep := {
  fcenter := 2549900000, fstep := 49900000, fshift := 0, decimation := 1,
  points := 1024, bins_skip := 103, bins_run := 409, bins_pass := 1,
  bins_keep := -327 }

/-- Witness for claim C4: at `min_points = 128`, `FULL_BW / rbw = 1024`
the emitted step has `points * decimation = max(128, 2^10) = 1024`. -/
theorem claim_C4_witness :
    c4wstep.points * c4wstep.decimation =
      max 128 (2 ^ (Int.clog 2 (points_r c4prop (125000000/1024))).toNat) ∧
    points_r c4prop (125000000/1024) ≤
      ((2 ^ (Int.clog 2 (points_r c4prop (125000000/1024))).toNat : ℤ) : ℚ) ∧
    ∀ k : ℕ, points_r c4prop (125000000/1024) ≤ (2 : ℚ) ^ k →
      (Int.clog 2 (points_r c4prop (125000000/1024))).toNat ≤ k :=
  claim_C4 c4prop 2500070000 2510070000 (125000000/1024) 128 8192 (by decide)
    (5000190625/2) (39365234375/16) c4wstep [] (by decide)

/-- Claim C8.  For every capability descriptor whose `MIN_DECIMATION` is
a power of two not exceeding `MAX_DECIMATION`, the decimation of every
step produced by `plan_sweep` is either 1 or a power of two lying
within `[MIN_DECIMATION, MAX_DECIMATION]`. -/
theorem claim_C8 (prop : DeviceProperties) (fstart fstop rbw : ℚ) (mp Mp : ℤ)
    (m : ℕ) (hmin : prop.MIN_DECIMATION = 2 ^ m)
    (hmm : prop.MIN_DECIMATION ≤ prop.MAX_DECIMATION) :
    ∀ fs ft st l, plan_sweep prop fstart fstop rbw mp Mp = .ok (fs, ft, st :: l) →
      st.decimation = 1 ∨
      ((∃ k : ℕ, st.decimation = 2 ^ k) ∧
        prop.MIN_DECIMATION ≤ (st.decimation : ℚ) ∧
        (st.decimation : ℚ) ≤ prop.MAX_DECIMATION) := by
  intro fs ft st l h
  obtain ⟨_, _, hst, _, _, _, _, _, _, hmd, _, _, _, _, _, hdp, hdi, _, _, _, _⟩ :=
    plan_sweep_ok_inv h
  have hstd : (st.decimation : ℚ) = decimation prop rbw mp Mp := by
    subst hst
    exact hdi
  by_cases hd1 : decimation prop rbw mp Mp = 1
  · left
    have : (st.decimation : ℚ) = 1 := by rw [hstd, hd1]
    exact_mod_cast this
  · right
    -- the decimating branch must have been taken
    have hbr : Mp < points_i prop rbw mp ∧
        min_decimation prop ≤ ideal_decimation prop rbw mp Mp := by
      by_contra hC
      exact hd1 (by unfold decimation; rw [if_neg hC])
    have hdec_eq : decimation prop rbw mp Mp =
        min (max_decimation prop) (ideal_decimation prop rbw mp Mp) := by
      unfold decimation
      rw [if_pos hbr]
    -- both arguments of the `min` are powers of two
    have hMAXpos : (0 : ℚ) < prop.MAX_DECIMATION := hmd
    have hMAX1 : (1 : ℚ) ≤ prop.MAX_DECIMATION := by
      calc (1 : ℚ) ≤ 2 ^ m := one_le_pow₀ (by norm_num)
        _ = prop.MIN_DECIMATION := hmin.symm
        _ ≤ prop.MAX_DECIMATION := hmm
    -- the `min` of the two powers of two is `pow2z` of the min exponent
    have hmin_pow : decimation prop rbw mp Mp =
        pow2z (min (flog2q prop.MAX_DECIMATION)
          (clog2q ((points_i prop rbw mp : ℚ) / (Mp : ℚ)))) := by
      rw [hdec_eq]
      unfold max_decimation ideal_decimation
      rcases le_total (flog2q prop.MAX_DECIMATION)
          (clog2q ((points_i prop rbw mp : ℚ) / (Mp : ℚ))) with hle | hle
      · rw [min_eq_left (pow2z_mono hle), min_eq_left hle]
      · rw [min_eq_right (pow2z_mono hle), min_eq_right hle]
    -- the exponent is nonnegative: `ideal_decimation ≥ 2` and
    -- `2 ^ m ≤ MAX_DECIMATION`
    have hideal2 : (2 : ℚ) ≤ ideal_decimation prop rbw mp Mp :=
      le_trans (le_max_left 2 prop.MIN_DECIMATION) hbr.2
    have hck : 1 ≤ clog2q ((points_i prop rbw mp : ℚ) / (Mp : ℚ)) := by
      by_contra hcon
      push_neg at hcon
      have : pow2z (clog2q ((points_i prop rbw mp : ℚ) / (Mp : ℚ))) ≤ pow2z 0 :=
        pow2z_mono (by omega)
      have h20 : pow2z 0 = 1 := rfl
      unfold ideal_decimation at hideal2
      rw [h20] at this
      linarith
    have hm_le : (m : ℤ) ≤ flog2q prop.MAX_DECIMATION := by
      rw [flog2q_eq]
      have h2m : ((2 : ℚ)) ^ (m : ℤ) ≤ prop.MAX_DECIMATION := by
        rw [zpow_natCast]
        rw [hmin] at hmm
        exact hmm
      exact (Int.zpow_le_iff_le_log (by norm_num) hMAXpos).mp h2m
    have hfk : 0 ≤ flog2q prop.MAX_DECIMATION := le_trans (by omega) hm_le
    set e : ℤ := min (flog2q prop.MAX_DECIMATION)
      (clog2q ((points_i prop rbw mp : ℚ) / (Mp : ℚ))) with he
    have hke : 0 ≤ e := le_min hfk (by omega)
    refine ⟨⟨e.toNat, ?_⟩, ?_, ?_⟩
    · have : (st.decimation : ℚ) = ((2 ^ e.toNat : ℤ) : ℚ) := by
        rw [hstd, hmin_pow, pow2z_toNat hke]
      exact_mod_cast this
    · rw [hstd, hmin_pow, he]
      -- MIN_DECIMATION = 2^m ≤ both arguments of the min
      have h1 : prop.MIN_DECIMATION ≤ pow2z (flog2q prop.MAX_DECIMATION) := by
        calc prop.MIN_DECIMATION = 2 ^ m := hmin
          _ = pow2z (m : ℤ) := by
            rw [pow2z_eq_zpow, zpow_natCast]
          _ ≤ pow2z (flog2q prop.MAX_DECIMATION) := pow2z_mono hm_le
      have h2 : prop.MIN_DECIMATION ≤
          pow2z (clog2q ((points_i prop rbw mp : ℚ) / (Mp : ℚ))) :=
        le_trans (le_max_right 2 prop.MIN_DECIMATION) hbr.2
      rcases min_cases (flog2q prop.MAX_DECIMATION)
          (clog2q ((points_i prop rbw mp : ℚ) / (Mp : ℚ))) with ⟨hmeq, _⟩ | ⟨hmeq, _⟩
      · rw [hmeq]; exact h1
      · rw [hmeq]; exact h2
    · rw [hstd, hmin_pow]
      have h5 : e ≤ flog2q prop.MAX_DECIMATION := by
        rw [he]; exact min_le_left _ _
      calc pow2z e ≤ pow2z (flog2q prop.MAX_DECIMATION) := pow2z_mono h5
        _ ≤ prop.MAX_DECIMATION := by
            rw [flog2q_eq, pow2z_eq_zpow]
            exact Int.zpow_log_le_self (by norm_num) hMAXpos

def c8prop : DeviceProperties := {
  FULL_BW := 125000000, USABLE_BW := 100000000,
  MIN_TUNABLE := 100000000, MAX_TUNABLE := 8000000000,
  MIN_DECIMATION := 4, MAX_DECIMATION := 1024,
  DECIMATED_USABLE := 1/2, DC_OFFSET_BW := 0, TUNING_RESOLUTION := 100000 }

def c8step : SweepStep := {
  fcenter := 2450000000, fstep := 15600000, fshift := 42187500, decimation := 4,
  points := 8192, bins_skip := 2048, bins_run := 4089, bins_pass := 0,
  bins_keep := 52424 }

/-- Witness for claim C8 at a decimating request (`FULL_BW / rbw = 32768`
with `max_points = 8192` forces `decimation = 4`). -/
theorem claim_C8_witness :
    c8step.decimation = 1 ∨
    ((∃ k : ℕ, c8step.decimation = 2 ^ k) ∧
      c8prop.MIN_DECIMATION ≤ (c8step.decimation : ℚ) ∧
      (c8step.decimation : ℚ) ≤ c8prop.MAX_DECIMATION) :=
  claim_C8 c8prop 2400000000 2600000000 (125000000/32768) 128 8192 2
    (by norm_num [c8prop]) (by norm_num [c8prop])
    2400000000 (332800271875/128) c8step [] (by decide)

/-! ## Capture-setup claims (C5, C9) -/

/-- If some step of a plan is larger than `32*1024` points, translating
the plan to sweep entries fails. -/
theorem mapM_entry_error (prop : DeviceProperties) :
    ∀ (plan : List SweepStep) (ss : SweepStep), ss ∈ plan →
      32 * 1024 < ss.points →
      ∃ e, plan.mapM (to_sweep_entry prop) = .error e := by
  intro plan
  induction plan with
  | nil =>
    intro ss hss
    simp at hss
  | cons hd tl ih =>
    intro ss hss hbig
    rw [List.mapM_cons]
    rcases List.mem_cons.mp hss with heq | htl
    · subst heq
      have hfa : to_sweep_entry prop ss = .error "large captures not yet supported" := by
        unfold to_sweep_entry
        rw [if_pos hbig]
      rw [hfa]
      exact ⟨_, rfl⟩
    · cases hfa : to_sweep_entry prop hd with
      | error e =>
        exact ⟨e, rfl⟩
      | ok b =>
        obtain ⟨e, he⟩ := ih ss htl hbig
        rw [he]
        exact ⟨e, rfl⟩

/-- Claim C5 (amended).  When the planned point count of some step
exceeds the `32*1024` capture-size ceiling, `capture_power_spectrum`
fails with a descriptive error before any sweep command
(`sweep_clear`/`sweep_add`/`sweep_iterations`/`sweep_start`) is issued —
but only after the initial `abort()`, `flush()` and
`request_read_perm()` at lines 134-136 have already been sent to the
hardware (the original claim's "no abort, flush, or sweep command"
is refuted by the counterexample). -/
theorem claim_C5 (prop : DeviceProperties) (s : SweepState)
    (fstart fstop rbw : ℚ) (cont : Bool) (mp Mp : ℤ) (fs ft : ℚ)
    (plan : List SweepStep) (ss : SweepStep)
    (hmode : cont = false ∨ s.asyncMode = true)
    (hplan : plan_sweep prop fstart fstop rbw mp Mp = .ok (fs, ft, plan))
    (hmem : ss ∈ plan) (hbig : 32 * 1024 < ss.points) :
    (∃ e, (captureSetup prop s fstart fstop rbw cont mp Mp).2 = .error e) ∧
    (captureSetup prop s fstart fstop rbw cont mp Mp).1 =
      [.abort, .flush, .requestReadPerm] := by
  have hc : ¬ (cont = true ∧ ¬ (s.asyncMode = true)) := by
    rcases hmode with h | h <;> simp [h]
  obtain ⟨e, he⟩ := mapM_entry_error prop plan ss hmem hbig
  unfold captureSetup
  rw [if_neg hc, hplan]
  simp only [he]
  exact ⟨⟨e, rfl⟩, trivial⟩

def c5prop : DeviceProperties := {
  FULL_BW := 125000000, USABLE_BW := 100000000,
  MIN_TUNABLE := 100000000, MAX_TUNABLE := 8000000000,
  MIN_DECIMATION := 4, MAX_DECIMATION := 1024,
  DECIMATED_USABLE := 1/2, DC_OFFSET_BW := 0, TUNING_RESOLUTION := 100000 }

def c5step : SweepStep := {
  fcenter := 2449900000, fstep := 49900000, fshift := 0, decimation := 1,
  points := 65536, bins_skip := 6554, bins_run := 26162, bins_pass := 52,
  bins_keep := 52 }

/-- Counterexample to claim C5 as stated: a request planning 65536
points per capture (above the 32768 ceiling) is indeed rejected with
the descriptive `SweepDeviceError`, but only AFTER `abort()`, `flush()`
and `request_read_perm()` were issued to the hardware — the claim's
"before any hardware action (no abort, flush, ...)" is false. -/
theorem claim_C5_cex :
    plan_sweep c5prop 2400000000 2450000000 (125000000/65536) 128 65536 =
      .ok (1228799971875/512, 1228901534375/512, [c5step]) ∧
    32 * 1024 < c5step.points ∧
    (captureSetup c5prop (initState 7 false) 2400000000 2450000000
        (125000000/65536) false 128 65536).2 =
      .error "large captures not yet supported" ∧
    HwAction.abort ∈ (captureSetup c5prop (initState 7 false) 2400000000 2450000000
        (125000000/65536) false 128 65536).1 := by
  refine ⟨by decide, by decide, by decide, by decide⟩

/-- Witness for claim C5 at the same oversized request. -/
theorem claim_C5_witness :
    (∃ e, (captureSetup c5prop (initState 7 false) 2400000000 2450000000
        (125000000/65536) false 128 65536).2 = .error e) ∧
    (captureSetup c5prop (initState 7 false) 2400000000 2450000000
        (125000000/65536) false 128 65536).1 =
      [.abort, .flush, .requestReadPerm] :=
  claim_C5 c5prop (initState 7 false) 2400000000 2450000000 (125000000/65536)
    false 128 65536 (1228799971875/512) (1228901534375/512) [c5step] c5step
    (Or.inl rfl) (by decide) (by decide) (by decide)

/-- Claim C9 (amended).  Starting a capture while a sweep is in flight
is NOT rejected: the engine replaces the in-flight sweep.  The second
call aborts and flushes the hardware, clears the sweep list, records
the in-flight id as `previous_sweep_id`, allocates the fresh id
`(old + 1) mod 2^32` (distinct from the old id, so stragglers of the
replaced sweep are classified past-end), resets the session, and starts
the new sweep.  At most one session exists at any time because the new
one overwrites the old in place. -/
theorem claim_C9 (prop : DeviceProperties) (s : SweepState)
    (fstart fstop rbw : ℚ) (cont : Bool) (mp Mp : ℤ) (i : ℕ) (fs ft : ℚ)
    (ss : SweepStep) (rest : List SweepStep) (entries : List SweepEntryM)
    (hin : s.ss_index = some i)
    (hid : s.sweep_id < 2 ^ 32)
    (hmode : cont = false ∨ s.asyncMode = true)
    (hplan : plan_sweep prop fstart fstop rbw mp Mp = .ok (fs, ft, ss :: rest))
    (hentries : (ss :: rest).mapM (to_sweep_entry prop) = .ok entries) :
    captureSetup prop s fstart fstop rbw cont mp Mp =
      ([HwAction.abort, HwAction.flush, HwAction.requestReadPerm] ++
        ([HwAction.abort, HwAction.flush, HwAction.sweepClear] ++
          entries.map HwAction.sweepAdd ++
          [HwAction.sweepIterations (if cont then 0 else 1),
           HwAction.sweepStart ((s.sweep_id + 1) % 2 ^ 32)]),
       .ok ({ s with
          continuous := cont, fstart := fs, fstop := ft, plan := ss :: rest,
          prev_sweep_id := some s.sweep_id,
          sweep_id := (s.sweep_id + 1) % 2 ^ 32,
          vrt_context := { sweepid := none, reflevel := none, rffreq := none },
          ss_index := some 0, ss_received := 0, bins := [] }, none)) ∧
    (s.sweep_id + 1) % 2 ^ 32 ≠ s.sweep_id := by
  constructor
  · have hc : ¬ (cont = true ∧ ¬ (s.asyncMode = true)) := by
      rcases hmode with h | h <;> simp [h]
    unfold captureSetup
    rw [if_neg hc, hplan]
    simp only [hentries, List.isEmpty_cons, Bool.false_eq_true, if_false]
    unfold startSweep
    rfl
  · omega

def c9prop : DeviceProperties := {
  FULL_BW := 125000000, USABLE_BW := 100000000,
  MIN_TUNABLE := 100000000, MAX_TUNABLE := 8000000000,
  MIN_DECIMATION := 4, MAX_DECIMATION := 1024,
  DECIMATED_USABLE := 1/2, DC_OFFSET_BW := 0, TUNING_RESOLUTION := 100000 }

/-- An engine state with a sweep in flight (`ss_index = some 0`). -/
def c9state : SweepState := { initState 7 false with ss_index := some 0 }

/-- Counterexample to claim C9 as stated: with a sweep in flight, a
second capture call is neither rejected nor prevented — it succeeds and
silently begins a new sweep (a `sweep_start` command with the fresh id
8 is issued). -/
theorem claim_C9_cex :
    c9state.ss_index = some 0 ∧
    (captureSetup c9prop c9state 2400000000 2600000000 1953125
        false 96 8192).2.isOk = true ∧
    HwAction.sweepStart 8 ∈ (captureSetup c9prop c9state 2400000000 2600000000
        1953125 false 96 8192).1 :=
  ⟨rfl, by decide, by decide⟩

def c9step : SweepStep := {
  fcenter := 2449400000, fstep := 49400000, fshift := 0, decimation := 1,
  points := 96, bins_skip := 10, bins_run := 38, bins_pass := 0,
  bins_keep := 116 }

def c9entry : SweepEntryM := {
  fstart := 2449400000, fstop := 2671700000, fstep := 49400000, fshift := 0,
  decimation := 1, spp := 96, ppb := 1 }

/-- Witness for claim C9 at a concrete in-flight state. -/
theorem claim_C9_witness :
    captureSetup c9prop c9state 2400000000 2600000000 1953125 false 96 8192 =
      ([HwAction.abort, HwAction.flush, HwAction.requestReadPerm] ++
        ([HwAction.abort, HwAction.flush, HwAction.sweepClear] ++
          [c9entry].map HwAction.sweepAdd ++
          [HwAction.sweepIterations (if false then 0 else 1),
           HwAction.sweepStart ((c9state.sweep_id + 1) % 2 ^ 32)]),
       .ok ({ c9state with
          continuous := false, fstart := 7199762500/3, fstop := 2550725000,
          plan := [c9step],
          prev_sweep_id := some c9state.sweep_id,
          sweep_id := (c9state.sweep_id + 1) % 2 ^ 32,
          vrt_context := { sweepid := none, reflevel := none, rffreq := none },
          ss_index := some 0, ss_received := 0, bins := [] }, none)) ∧
    (c9state.sweep_id + 1) % 2 ^ 32 ≠ c9state.sweep_id :=
  claim_C9 c9prop c9state 2400000000 2600000000 1953125 false 96 8192 0
    (7199762500/3) 2550725000 c9step [] [c9entry] rfl (by decide)
    (Or.inl rfl) (by decide) (by decide)

/-! ## Packet-handler claims (C3, C6, C10) -/

/-- The bin-collection effect of lines 209-231 for one matching data
packet in mid-step: discard `bins_pass` from the front only on the
first capture of the step, keep
`min(bins_run - discard, bins_keep - received)` bins. -/
def collectBins (s : SweepState) (n : ℕ) (pow : List ℚ) (ss : SweepStep) :
    SweepState :=
  let nb := n * 4
  let pass_now : ℤ := if s.ss_received = 0 then ss.bins_pass else 0
  let take : ℤ := min (ss.bins_run - pass_now) (ss.bins_keep - s.ss_received)
  let start : ℤ := ss.bins_skip + pass_now
  { s with
    data_bytes_received := s.data_bytes_received + nb,
    vrt_context := { s.vrt_context with
      reflevel := some (s.vrt_context.reflevel.getD 0) },
    bins := s.bins ++ pySlice pow start (start + take),
    ss_received := s.ss_received + take,
    data_bytes_processed := s.data_bytes_processed + take * 4 }

/-- Claim C3 (amended).  For a data packet: if the context sweep id
equals the active id (and the session is mid-step with the required
context present), its bins are kept per the step's accounting; if it
equals the previous id, `past_end_bytes_discarded` grows by the packet
bytes; otherwise `martian_bytes_discarded` grows by the packet bytes.
In the two discard arms no session state changes EXCEPT the
unconditional `data_bytes_received` accounting of line 189 (the
original "no other state change" is refuted by the counterexample). -/
theorem claim_C3 (s : SweepState) (n : ℕ) (pow : List ℚ) :
    (s.vrt_context.sweepid ≠ some s.sweep_id →
      s.vrt_context.sweepid = s.prev_sweep_id →
      vrtReceive s (.data n pow) =
        .ok ({ s with
            data_bytes_received := s.data_bytes_received + n * 4,
            past_end_bytes_discarded := s.past_end_bytes_discarded + n * 4 },
          none, [])) ∧
    (s.vrt_context.sweepid ≠ some s.sweep_id →
      s.vrt_context.sweepid ≠ s.prev_sweep_id →
      vrtReceive s (.data n pow) =
        .ok ({ s with
            data_bytes_received := s.data_bytes_received + n * 4,
            martian_bytes_discarded := s.martian_bytes_discarded + n * 4 },
          none, [])) ∧
    (∀ f i ss, s.vrt_context.sweepid = some s.sweep_id →
      s.vrt_context.rffreq = some f → s.ss_index = some i →
      s.plan[i]? = some ss →
      (collectBins s n pow ss).ss_received < ss.bins_keep →
      vrtReceive s (.data n pow) =
        .ok (collectBins s n pow ss, none, [])) := by
  refine ⟨?_, ?_, ?_⟩
  · intro hne heq
    simp only [vrtReceive]
    rw [if_neg hne, if_pos heq]
  · intro hne hne2
    simp only [vrtReceive]
    rw [if_neg hne, if_neg hne2]
  · intro f i ss hctx hrf hidx hss hlt
    simp only [vrtReceive]
    rw [if_pos hctx]
    simp only [hrf, hidx, hss]
    rw [if_pos ?hlt]
    case hlt =>
      simpa [collectBins] using hlt
    simp only [collectBins]
    rw [← hrf, ← hidx]

/- Instance-resolution for the triple in `vrtReceive`'s result type
needs these two registered stepwise. -/
instance : DecidableEq (Option SweepResult × List HwAction) := inferInstance

instance : DecidableEq (SweepState × Option SweepResult × List HwAction) :=
  inferInstance

/-- A state with an active sweep id 5 whose context still carries the
previous sweep's id 4. -/
def c3state : SweepState :=
  { initState 5 false with
      prev_sweep_id := some 4,
      ss_index := some 0,
      vrt_context := { sweepid := some 4, reflevel := some 0, rffreq := some 2450000000 } }

/-- Counterexample to claim C3 as stated: a past-end packet does
increment `past_end_bytes_discarded` by its byte size, but
`data_bytes_received` also changes (line 189 runs for every data
packet), so "dropped with no other state change" is false. -/
theorem claim_C3_cex :
    vrtReceive c3state (.data 3 [1, 2, 3]) =
      .ok ({ c3state with
          data_bytes_received := 12,
          past_end_bytes_discarded := 12 }, none, []) ∧
    ({ c3state with
        data_bytes_received := 12,
        past_end_bytes_discarded := 12 } : SweepState).data_bytes_received ≠
      c3state.data_bytes_received :=
  ⟨by decide, by decide⟩

/-- Witness for claim C3: all three classification arms at concrete
states. -/
theorem claim_C3_witness :
    vrtReceive c3state (.data 3 [1, 2, 3]) =
      .ok ({ c3state with
          data_bytes_received := c3state.data_bytes_received + 3 * 4,
          past_end_bytes_discarded :=
            c3state.past_end_bytes_discarded + 3 * 4 }, none, []) :=
  (claim_C3 c3state 3 [1, 2, 3]).1 (by decide) (by decide)

/-- Claim C6.  Once the session is terminal (`ss_index = None`,
single-shot sweep fully completed), every further data packet whose
context sweep id matches the active `sweep_id` only increments
`past_end_bytes_discarded` by the packet's byte size (plus the
unconditional `data_bytes_received` accounting and the tolerant
`reflevel` default): no bins are appended, the session stays terminal,
and no result is delivered. -/
theorem claim_C6 (s : SweepState) (n : ℕ) (pow : List ℚ) (f : ℚ)
    (hterm : s.ss_index = none)
    (hctx : s.vrt_context.sweepid = some s.sweep_id)
    (hrf : s.vrt_context.rffreq = some f) :
    vrtReceive s (.data n pow) =
      .ok ({ s with
          data_bytes_received := s.data_bytes_received + n * 4,
          vrt_context := { s.vrt_context with
            reflevel := some (s.vrt_context.reflevel.getD 0) },
          past_end_bytes_discarded := s.past_end_bytes_discarded + n * 4 },
        none, []) := by
  simp only [vrtReceive]
  rw [if_pos hctx]
  simp only [hrf, hterm]

/-- A terminal session: `ss_index = None` after a completed single-shot
sweep, context still matching the active sweep id 5. -/
def c6state : SweepState :=
  { initState 5 false with
      prev_sweep_id := some 4,
      ss_index := none,
      bins := [7, 8, 9],
      vrt_context := { sweepid := some 5, reflevel := some 0, rffreq := some 2450000000 } }

/-- Witness for claim C6 at a concrete terminal state. -/
theorem claim_C6_witness :
    vrtReceive c6state (.data 3 [1, 2, 3]) =
      .ok ({ c6state with
          data_bytes_received := c6state.data_bytes_received + 3 * 4,
          vrt_context := { c6state.vrt_context with
            reflevel := some (c6state.vrt_context.reflevel.getD 0) },
          past_end_bytes_discarded :=
            c6state.past_end_bytes_discarded + 3 * 4 },
        none, []) :=
  claim_C6 c6state 3 [1, 2, 3] 2450000000 rfl rfl rfl

/-- Claim C10 (amended).  During the first (or any) started sweep, a
data packet arriving before any context packet carrying a sweep id is
counted as MARTIAN, not past-end: `_start_sweep` (line 172) has already
replaced the `None` previous-sweep id with the constructor's random id,
so the absent context sweep id (`None`) no longer equals
`previous_sweep_id`.  The claimed `None == None` coincidence can only
occur before any sweep is started, a state in which the engine never
receives packets (the receive callback is installed, and `_vrt_context`
itself first created, at sweep start). -/
theorem claim_C10 (s : SweepState) (p : ℕ) (n : ℕ) (pow : List ℚ)
    (hctx : s.vrt_context.sweepid = none)
    (hprev : s.prev_sweep_id = some p) :
    vrtReceive s (.data n pow) =
      .ok ({ s with
          data_bytes_received := s.data_bytes_received + n * 4,
          martian_bytes_discarded := s.martian_bytes_discarded + n * 4 },
        none, []) ∧
    ({ s with
        data_bytes_received := s.data_bytes_received + n * 4,
        martian_bytes_discarded := s.martian_bytes_discarded + n * 4 } :
      SweepState).past_end_bytes_discarded = s.past_end_bytes_discarded := by
  constructor
  · simp only [vrtReceive]
    rw [if_neg (by simp [hctx]), if_neg (by simp [hctx, hprev])]
  · rfl

def c10prop : DeviceProperties := {
  FULL_BW := 125000000, USABLE_BW := 100000000,
  MIN_TUNABLE := 100000000, MAX_TUNABLE := 8000000000,
  MIN_DECIMATION := 4, MAX_DECIMATION := 1024,
  DECIMATED_USABLE := 1/2, DC_OFFSET_BW := 0, TUNING_RESOLUTION := 100000 }

def c10step : SweepStep := {
  fcenter := 2449400000, fstep := 49400000, fshift := 0, decimation := 1,
  points := 96, bins_skip := 10, bins_run := 38, bins_pass := 0,
  bins_keep := 116 }

/-- The engine state right after the first sweep is started from a
freshly-constructed engine with random id 7: `previous_sweep_id` is now
`some 7` (not `None`), the active id is 8, the context is empty. -/
def c10s1 : SweepState := {
  sweep_id := 8,
  prev_sweep_id := some 7,
  vrt_context := { sweepid := none, reflevel := none, rffreq := none },
  ss_index := some 0,
  ss_received := 0,
  bins := [],
  continuous := false,
  asyncMode := false,
  plan := [c10step],
  fstart := 7199762500/3,
  fstop := 2550725000,
  context_bytes_received := 0,
  data_bytes_received := 0,
  data_bytes_processed := 0,
  martian_bytes_discarded := 0,
  past_end_bytes_discarded := 0 }

/-- Counterexample to claim C10 as stated: starting the first sweep on
a freshly-constructed engine (random id 7) yields exactly the state
`c10s1`; a data packet that then arrives before any context packet is
counted as martian (`martian_bytes_discarded = 12`), while
`past_end_bytes_discarded` stays 0 — not past-end as claimed. -/
theorem claim_C10_cex :
    (captureSetup c10prop (initState 7 false) 2400000000 2600000000 1953125
        false 96 8192).2 = .ok (c10s1, none) ∧
    vrtReceive c10s1 (.data 3 [1, 2, 3]) =
      .ok ({ c10s1 with
          data_bytes_received := 12,
          martian_bytes_discarded := 12 }, none, []) ∧
    ({ c10s1 with
        data_bytes_received := 12,
        martian_bytes_discarded := 12 } : SweepState).past_end_bytes_discarded = 0 :=
  ⟨by decide, by decide, rfl⟩

/-- Witness for claim C10 at the post-start state `c10s1`. -/
theorem claim_C10_witness :
    vrtReceive c10s1 (.data 3 [1, 2, 3]) =
      .ok ({ c10s1 with
          data_bytes_received := c10s1.data_bytes_received + 3 * 4,
          martian_bytes_discarded := c10s1.martian_bytes_discarded + 3 * 4 },
        none, []) ∧
    ({ c10s1 with
        data_bytes_received := c10s1.data_bytes_received + 3 * 4,
        martian_bytes_discarded := c10s1.martian_bytes_discarded + 3 * 4 } :
      SweepState).past_end_bytes_discarded = c10s1.past_end_bytes_discarded :=
  claim_C10 c10s1 7 3 [1, 2, 3] rfl rfl

/-! ## Bin-accounting claims (C2, C7) -/

/-- The `CaptureStep` data-model invariants of a valid step (spec §3):
nonnegative skip, `0 ≤ bins_pass < bins_run`, at least one bin kept. -/
def StepOK (ss : SweepStep) : Prop :=
  0 ≤ ss.bins_skip ∧ 0 ≤ ss.bins_pass ∧ ss.bins_pass < ss.bins_run ∧
    1 ≤ ss.bins_keep

/-- Session invariant while collecting a single-step plan: the step is
active, the received counter is in range and counts exactly the
assembled bins. -/
def SessionInv (ss : SweepStep) (s : SweepState) : Prop :=
  s.plan = [ss] ∧ s.ss_index = some 0 ∧ 0 ≤ s.ss_received ∧
    s.ss_received < ss.bins_keep ∧ (s.bins.length : ℤ) = s.ss_received

/-- The hypothesis of claim C2 on packets: each data packet's FFT
output has at least `bins_skip + bins_run` power values. -/
def dataLenOK (ss : SweepStep) : Packet → Prop
  | .data _ pow => ss.bins_skip + ss.bins_run ≤ (pow.length : ℤ)
  | .context _ _ => True

/-- One step of the receive handler preserves the session invariant, or
completes the sweep delivering exactly `bins_keep` bins (and, in
continuous async mode, re-establishes the invariant for the next
cycle with no hardware abort/flush). -/
theorem vrt_step_inv (ss : SweepStep) (hok : StepOK ss) (s : SweepState)
    (hinv : SessionInv ss s) (p : Packet) (hlen : dataLenOK ss p)
    (s' : SweepState) (res : Option SweepResult) (acts : List HwAction)
    (hrun : vrtReceive s p = .ok (s', res, acts)) :
    s'.plan = s.plan ∧ s'.continuous = s.continuous ∧
    s'.asyncMode = s.asyncMode ∧ s'.fstart = s.fstart ∧ s'.fstop = s.fstop ∧
    ((res = none ∧ SessionInv ss s') ∨
      (∃ bOut : List ℚ, res = some (s.fstart, s.fstop, bOut) ∧
        (bOut.length : ℤ) = ss.bins_keep ∧
        ((s.continuous = true ∧ s.asyncMode = true) →
          (SessionInv ss s' ∧ acts = [])))) := by
  obtain ⟨hplan, hidx, hrec0, hreck, hbinlen⟩ := hinv
  obtain ⟨hskip, hpass0, hpassrun, hkeep1⟩ := hok
  cases p with
  | context m flds =>
    have hc : vrtReceive s (.context m flds) =
        .ok ({ s with
            vrt_context := mergeCtx s.vrt_context flds,
            context_bytes_received := s.context_bytes_received + m * 4 },
          none, []) := rfl
    rw [hc] at hrun
    simp only [Except.ok.injEq, Prod.mk.injEq] at hrun
    obtain ⟨h1, h2, h3⟩ := hrun
    subst h1
    subst h2
    subst h3
    exact ⟨rfl, rfl, rfl, rfl, rfl,
      Or.inl ⟨rfl, hplan, hidx, hrec0, hreck, hbinlen⟩⟩
  | data n pow =>
    by_cases hm : s.vrt_context.sweepid = some s.sweep_id
    · -- matching data packet
      cases hrff : s.vrt_context.rffreq with
      | none =>
        have : vrtReceive s (.data n pow) = .error "KeyError: rffreq" := by
          simp only [vrtReceive]
          rw [if_pos hm]
          simp only [hrff]
        rw [this] at hrun
        exact Except.noConfusion hrun
      | some f =>
        -- mid-step collection; the step is s.plan[0] = ss
        have hss0 : s.plan[0]? = some ss := by rw [hplan]; rfl
        have hlen2 : ss.bins_skip + ss.bins_run ≤ (pow.length : ℤ) := hlen
        set pass_now : ℤ :=
          if s.ss_received = 0 then ss.bins_pass else 0 with hpn
        set take : ℤ :=
          min (ss.bins_run - pass_now) (ss.bins_keep - s.ss_received) with htk
        have hpn0 : 0 ≤ pass_now := by
          rw [hpn]; split <;> omega
        have hpnlt : pass_now < ss.bins_run := by
          rw [hpn]; split <;> omega
        have htake1 : 1 ≤ take := by
          rw [htk]
          have h1 : 1 ≤ ss.bins_run - pass_now := by omega
          have h2 : 1 ≤ ss.bins_keep - s.ss_received := by omega
          omega
        have htakekeep : take ≤ ss.bins_keep - s.ss_received := by
          rw [htk]; exact min_le_right _ _
        have htakerun : take ≤ ss.bins_run - pass_now := by
          rw [htk]; exact min_le_left _ _
        have hslice : ((pySlice pow (ss.bins_skip + pass_now)
            (ss.bins_skip + pass_now + take)).length : ℤ) = take := by
          rw [pySlice_length pow _ _ (by omega) (by omega) (by omega)]
          omega
        by_cases hfin : s.ss_received + take < ss.bins_keep
        · -- the step is not finished: invariant is preserved
          have hstep : vrtReceive s (.data n pow) =
              .ok ({ s with
                  data_bytes_received := s.data_bytes_received + n * 4,
                  vrt_context := { s.vrt_context with
                    reflevel := some (s.vrt_context.reflevel.getD 0) },
                  bins := s.bins ++ pySlice pow (ss.bins_skip + pass_now)
                    (ss.bins_skip + pass_now + take),
                  ss_received := s.ss_received + take,
                  data_bytes_processed := s.data_bytes_processed + take * 4 },
                none, []) := by
            simp only [vrtReceive]
            rw [if_pos hm]
            simp only [hrff, hidx, hss0]
            rw [if_pos ?hlt]
            case hlt => simpa [← hpn, ← htk] using hfin
          rw [hstep] at hrun
          simp only [Except.ok.injEq, Prod.mk.injEq] at hrun
          obtain ⟨h1, h2, h3⟩ := hrun
          subst h1
          subst h2
          subst h3
          refine ⟨rfl, rfl, rfl, rfl, rfl,
            Or.inl ⟨rfl, hplan, hidx, ?_, ?_, ?_⟩⟩
          · dsimp only
            omega
          · exact hfin
          · dsimp only
            simp only [List.length_append]
            push_cast
            omega
        · -- the step (and with one step, the sweep) is complete
          have hfin2 : s.ss_received + take = ss.bins_keep := by omega
          have hboutlen : (((s.bins ++ pySlice pow (ss.bins_skip + pass_now)
              (ss.bins_skip + pass_now + take)).length : ℕ) : ℤ) =
              ss.bins_keep := by
            simp only [List.length_append]
            push_cast
            omega
          by_cases hcb : s.continuous = true
          · by_cases hab : s.asyncMode = true
            · -- continuous async: deliver and reset in place, no abort/flush
              have hstep : vrtReceive s (.data n pow) =
                  .ok ({ s with
                      data_bytes_received := s.data_bytes_received + n * 4,
                      vrt_context := { s.vrt_context with
                        reflevel := some (s.vrt_context.reflevel.getD 0) },
                      bins := [],
                      ss_received := 0,
                      ss_index := some 0,
                      data_bytes_processed :=
                        s.data_bytes_processed + take * 4 },
                    some (s.fstart, s.fstop,
                      s.bins ++ pySlice pow (ss.bins_skip + pass_now)
                        (ss.bins_skip + pass_now + take)), []) := by
                simp only [vrtReceive]
                rw [if_pos hm]
                simp only [hrff, hidx, hss0]
                rw [if_neg ?hge]
                case hge => simpa [← hpn, ← htk] using hfin
                rw [if_neg ?hpl]
                case hpl => simp [hplan]
                simp only [hcb, hab, if_true]
              rw [hstep] at hrun
              simp only [Except.ok.injEq, Prod.mk.injEq] at hrun
              obtain ⟨h1, h2, h3⟩ := hrun
              subst h1
              subst h2
              subst h3
              refine ⟨rfl, rfl, rfl, rfl, rfl, Or.inr ⟨_, rfl, hboutlen, ?_⟩⟩
              intro _
              exact ⟨⟨hplan, rfl, le_refl 0, by dsimp only; omega, rfl⟩, rfl⟩
            · -- continuous sync (unreachable through the API): deliver,
              -- session left at the step past the end of the plan
              have hstep : vrtReceive s (.data n pow) =
                  .ok ({ s with
                      data_bytes_received := s.data_bytes_received + n * 4,
                      vrt_context := { s.vrt_context with
                        reflevel := some (s.vrt_context.reflevel.getD 0) },
                      bins := s.bins ++ pySlice pow (ss.bins_skip + pass_now)
                        (ss.bins_skip + pass_now + take),
                      ss_received := 0,
                      ss_index := some (0 + 1),
                      data_bytes_processed :=
                        s.data_bytes_processed + take * 4 },
                    some (s.fstart, s.fstop,
                      s.bins ++ pySlice pow (ss.bins_skip + pass_now)
                        (ss.bins_skip + pass_now + take)), []) := by
                simp only [vrtReceive]
                rw [if_pos hm]
                simp only [hrff, hidx, hss0]
                rw [if_neg ?hge]
                case hge => simpa [← hpn, ← htk] using hfin
                rw [if_neg ?hpl]
                case hpl => simp [hplan]
                simp only [hcb, hab, if_true, Bool.false_eq_true, if_false]
              rw [hstep] at hrun
              simp only [Except.ok.injEq, Prod.mk.injEq] at hrun
              obtain ⟨h1, h2, h3⟩ := hrun
              subst h1
              subst h2
              subst h3
              refine ⟨rfl, rfl, rfl, rfl, rfl, Or.inr ⟨_, rfl, hboutlen, ?_⟩⟩
              intro hca
              exact absurd hca.2 hab
          · -- single-shot: deliver, terminal session, abort and flush issued
            have hstep : vrtReceive s (.data n pow) =
                .ok ({ s with
                    data_bytes_received := s.data_bytes_received + n * 4,
                    vrt_context := { s.vrt_context with
                      reflevel := some (s.vrt_context.reflevel.getD 0) },
                    bins := s.bins ++ pySlice pow (ss.bins_skip + pass_now)
                      (ss.bins_skip + pass_now + take),
                    ss_received := 0,
                    ss_index := none,
                    data_bytes_processed :=
                      s.data_bytes_processed + take * 4 },
                  some (s.fstart, s.fstop,
                    s.bins ++ pySlice pow (ss.bins_skip + pass_now)
                      (ss.bins_skip + pass_now + take)),
                  [HwAction.abort, HwAction.flush]) := by
              simp only [vrtReceive]
              rw [if_pos hm]
              simp only [hrff, hidx, hss0]
              rw [if_neg ?hge]
              case hge => simpa [← hpn, ← htk] using hfin
              rw [if_neg ?hpl]
              case hpl => simp [hplan]
              simp only [hcb, Bool.false_eq_true, if_false]
              split <;> rfl
            rw [hstep] at hrun
            simp only [Except.ok.injEq, Prod.mk.injEq] at hrun
            obtain ⟨h1, h2, h3⟩ := hrun
            subst h1
            subst h2
            subst h3
            refine ⟨rfl, rfl, rfl, rfl, rfl, Or.inr ⟨_, rfl, hboutlen, ?_⟩⟩
            intro hca
            exact absurd hca.1 hcb
    · -- data packet not for this sweep: dropped, session untouched
      by_cases hp : s.vrt_context.sweepid = s.prev_sweep_id
      · have hstep : vrtReceive s (.data n pow) =
            .ok ({ s with
                data_bytes_received := s.data_bytes_received + n * 4,
                past_end_bytes_discarded :=
                  s.past_end_bytes_discarded + n * 4 }, none, []) := by
          simp only [vrtReceive]
          rw [if_neg hm, if_pos hp]
        rw [hstep] at hrun
        simp only [Except.ok.injEq, Prod.mk.injEq] at hrun
        obtain ⟨h1, h2, h3⟩ := hrun
        subst h1
        subst h2
        subst h3
        exact ⟨rfl, rfl, rfl, rfl, rfl,
          Or.inl ⟨rfl, hplan, hidx, hrec0, hreck, hbinlen⟩⟩
      · have hstep : vrtReceive s (.data n pow) =
            .ok ({ s with
                data_bytes_received := s.data_bytes_received + n * 4,
                martian_bytes_discarded :=
                  s.martian_bytes_discarded + n * 4 }, none, []) := by
          simp only [vrtReceive]
          rw [if_neg hm, if_neg hp]
        rw [hstep] at hrun
        simp only [Except.ok.injEq, Prod.mk.injEq] at hrun
        obtain ⟨h1, h2, h3⟩ := hrun
        subst h1
        subst h2
        subst h3
        exact ⟨rfl, rfl, rfl, rfl, rfl,
          Or.inl ⟨rfl, hplan, hidx, hrec0, hreck, hbinlen⟩⟩

/-- In the blocking receive loop, whatever result completes the sweep
carries exactly `bins_keep` bins. -/
theorem feedSync_keep (ss : SweepStep) (hok : StepOK ss) :
    ∀ (ps : List Packet) (s : SweepState), SessionInv ss s →
      (∀ p ∈ ps, dataLenOK ss p) →
      ∀ s1 fs ft bOut, feedSync s ps = .ok (s1, some (fs, ft, bOut)) →
      (bOut.length : ℤ) = ss.bins_keep := by
  intro ps
  induction ps with
  | nil =>
    intro s hinv hlen s1 fs ft bOut hrun
    simp [feedSync] at hrun
  | cons p ps ih =>
    intro s hinv hlen s1 fs ft bOut hrun
    cases hr : vrtReceive s p with
    | error e =>
      rw [feedSync, hr] at hrun
      exact Except.noConfusion hrun
    | ok t =>
      obtain ⟨s', res, acts⟩ := t
      have hst := vrt_step_inv ss hok s hinv p (hlen p (List.mem_cons_self p ps))
        s' res acts hr
      cases res with
      | none =>
        rw [feedSync, hr] at hrun
        rcases hst.2.2.2.2.2 with ⟨_, hinv2⟩ | ⟨bOut2, hsome, _, _⟩
        · exact ih s' hinv2 (fun q hq => hlen q (List.mem_cons_of_mem p hq))
            s1 fs ft bOut hrun
        · exact Option.noConfusion hsome
      | some r =>
        rw [feedSync, hr] at hrun
        simp only [Except.ok.injEq, Prod.mk.injEq, Option.some.injEq] at hrun
        obtain ⟨hs1, hr2⟩ := hrun
        rcases hst.2.2.2.2.2 with ⟨hnone, _⟩ | ⟨bOut2, hsome, hlen2, _⟩
        · exact Option.noConfusion hnone
        · have hreq : r = (s.fstart, s.fstop, bOut2) := Option.some.inj hsome
          rw [hreq] at hr2
          simp only [Prod.mk.injEq] at hr2
          obtain ⟨h5, h6, hb⟩ := hr2
          rw [← hb]
          exact hlen2

/-- In the continuous async receive loop, every delivered result
carries exactly `bins_keep` bins. -/
theorem feedCont_keep (ss : SweepStep) (hok : StepOK ss) :
    ∀ (ps : List Packet) (s : SweepState), SessionInv ss s →
      s.continuous = true → s.asyncMode = true →
      (∀ p ∈ ps, dataLenOK ss p) →
      ∀ s1 rs, feedCont s ps = .ok (s1, rs) →
      ∀ r ∈ rs, ((r.2.2 : List ℚ).length : ℤ) = ss.bins_keep := by
  intro ps
  induction ps with
  | nil =>
    intro s hinv hc ha hlen s1 rs hrun r hr
    simp only [feedCont, Except.ok.injEq, Prod.mk.injEq] at hrun
    rw [← hrun.2] at hr
    simp at hr
  | cons p ps ih =>
    intro s hinv hc ha hlen s1 rs hrun r hrm
    cases hr : vrtReceive s p with
    | error e =>
      rw [feedCont, hr] at hrun
      exact Except.noConfusion hrun
    | ok t =>
      obtain ⟨s', res, acts⟩ := t
      have hst := vrt_step_inv ss hok s hinv p (hlen p (List.mem_cons_self p ps))
        s' res acts hr
      obtain ⟨hplan2, hcont2, hasync2, hfs2, hft2, hdisj⟩ := hst
      cases hrest : feedCont s' ps with
      | error e =>
        simp only [feedCont, hr, hrest] at hrun
        exact Except.noConfusion hrun
      | ok t2 =>
        obtain ⟨sf, rs2⟩ := t2
        simp only [feedCont, hr, hrest, Except.ok.injEq, Prod.mk.injEq] at hrun
        obtain ⟨hsf, hrs⟩ := hrun
        rcases hdisj with ⟨hres, hinv2⟩ | ⟨bOut, hres, hlen2, himp⟩
        · subst hres
          rw [← hrs] at hrm
          simp only [Option.toList_none, List.nil_append] at hrm
          exact ih s' hinv2 (hcont2.trans hc) (hasync2.trans ha)
            (fun q hq => hlen q (List.mem_cons_of_mem p hq)) sf rs2 hrest r hrm
        · subst hres
          obtain ⟨hinv2, hacts⟩ := himp ⟨hc, ha⟩
          rw [← hrs] at hrm
          simp only [Option.toList_some] at hrm
          rcases List.mem_cons.mp hrm with hhead | htail
          · rw [hhead]
            exact hlen2
          · exact ih s' hinv2 (hcont2.trans hc) (hasync2.trans ha)
              (fun q hq => hlen q (List.mem_cons_of_mem p hq)) sf rs2 hrest r htail

/-- Claim C2.  For a completed single-step sweep whose step satisfies
the `CaptureStep` data-model invariants and in which every data
packet carries at least `bins_skip + bins_run` power values, the
assembled result delivered by the blocking loop contains exactly
`bins_keep` bins, regardless of how many packets were needed. -/
theorem claim_C2 (ss : SweepStep) (hok : StepOK ss) (s : SweepState)
    (hplan : s.plan = [ss]) (hidx : s.ss_index = some 0)
    (hrec : s.ss_received = 0) (hbins : s.bins = [])
    (ps : List Packet) (hlen : ∀ p ∈ ps, dataLenOK ss p)
    (s1 : SweepState) (fs ft : ℚ) (bOut : List ℚ)
    (hrun : feedSync s ps = .ok (s1, some (fs, ft, bOut))) :
    (bOut.length : ℤ) = ss.bins_keep := by
  have h0 : 0 < ss.bins_keep := by
    have := hok.2.2.2
    omega
  exact feedSync_keep ss hok ps s
    ⟨hplan, hidx, by rw [hrec], by rw [hrec]; exact h0,
      by rw [hbins, hrec]; rfl⟩
    hlen s1 fs ft bOut hrun

/-- Concrete step for the C2 witness. -/
def c2step : SweepStep :=
  { fcenter := 0, fstep := 0, fshift := 0, decimation := 1, points := 8,
    bins_skip := 1, bins_run := 3, bins_pass := 1, bins_keep := 4 }

/-- Fresh single-step session for the C2 witness. -/
def c2state : SweepState :=
  { sweep_id := 7
    prev_sweep_id := none
    vrt_context := { sweepid := some 7, reflevel := some 0, rffreq := some 123 }
    ss_index := some 0
    ss_received := 0
    bins := []
    continuous := false
    asyncMode := false
    plan := [c2step]
    fstart := 10
    fstop := 20
    context_bytes_received := 0
    data_bytes_received := 0
    data_bytes_processed := 0
    martian_bytes_discarded := 0
    past_end_bytes_discarded := 0 }

/-- Two data packets completing the C2 witness sweep. -/
def c2pkts : List Packet :=
  [.data 5 [1, 2, 3, 4, 5, 6], .data 5 [11, 12, 13, 14, 15, 16]]

/-- Final state of the C2 witness run. -/
def c2final : SweepState :=
  { sweep_id := 7
    prev_sweep_id := none
    vrt_context := { sweepid := some 7, reflevel := some 0, rffreq := some 123 }
    ss_index := none
    ss_received := 0
    bins := [3, 4, 12, 13]
    continuous := false
    asyncMode := false
    plan := [c2step]
    fstart := 10
    fstop := 20
    context_bytes_received := 0
    data_bytes_received := 40
    data_bytes_processed := 16
    martian_bytes_discarded := 0
    past_end_bytes_discarded := 0 }

/-- Witness for C2: the two-packet run above delivers exactly
`bins_keep = 4` bins. -/
theorem claim_C2_witness :
    (([3, 4, 12, 13] : List ℚ).length : ℤ) = c2step.bins_keep :=
  claim_C2 c2step (by refine ⟨?_, ?_, ?_, ?_⟩ <;> decide) c2state rfl rfl rfl rfl
    c2pkts
    (by
      intro p hp
      simp only [c2pkts, List.mem_cons, List.not_mem_nil, or_false] at hp
      rcases hp with rfl | rfl <;> simp only [dataLenOK] <;> decide)
    c2final 10 20 [3, 4, 12, 13] (by decide)

/-- Claim C7.  In continuous async mode, the data packet that completes
the sweep delivers the result (with exactly `bins_keep` bins) through
the callback, issues no hardware command (in particular no abort or
flush), and resets the session to step index 0, zero bins received and
an empty assembled-bin list with the plan unchanged; any following full
cycle of matching packets again yields only sweeps of exactly
`bins_keep` bins. -/
theorem claim_C7 (ss : SweepStep) (hok : StepOK ss) (s : SweepState)
    (hcont : s.continuous = true) (hasync : s.asyncMode = true)
    (hinv : SessionInv ss s) (n : ℕ) (pow : List ℚ) (f : ℚ)
    (hm : s.vrt_context.sweepid = some s.sweep_id)
    (hrff : s.vrt_context.rffreq = some f)
    (hlen : ss.bins_skip + ss.bins_run ≤ (pow.length : ℤ))
    (hdone : ss.bins_keep - s.ss_received ≤
      ss.bins_run - (if s.ss_received = 0 then ss.bins_pass else 0)) :
    ∃ s2 bOut,
      vrtReceive s (.data n pow) =
        .ok (s2, some (s.fstart, s.fstop, bOut), ([] : List HwAction)) ∧
      (bOut.length : ℤ) = ss.bins_keep ∧
      s2.ss_index = some 0 ∧ s2.ss_received = 0 ∧ s2.bins = [] ∧
      s2.plan = s.plan ∧
      (∀ ps s3 rs, (∀ p ∈ ps, dataLenOK ss p) →
        feedCont s2 ps = .ok (s3, rs) →
        ∀ r ∈ rs, ((r.2.2 : List ℚ).length : ℤ) = ss.bins_keep) := by
  obtain ⟨hplan, hidx, hrec0, hreck, hbinlen⟩ := hinv
  obtain ⟨hskip, hpass0, hpassrun, hkeep1⟩ := hok
  have hss0 : s.plan[0]? = some ss := by rw [hplan]; rfl
  set pass_now : ℤ :=
    if s.ss_received = 0 then ss.bins_pass else 0 with hpn
  set take : ℤ :=
    min (ss.bins_run - pass_now) (ss.bins_keep - s.ss_received) with htk
  have hpn0 : 0 ≤ pass_now := by
    rw [hpn]; split <;> omega
  have htkeq : take = ss.bins_keep - s.ss_received := by
    rw [htk]; exact min_eq_right hdone
  have htake1 : 1 ≤ take := by omega
  have hfin : ¬ (s.ss_received + take < ss.bins_keep) := by omega
  have hslice : ((pySlice pow (ss.bins_skip + pass_now)
      (ss.bins_skip + pass_now + take)).length : ℤ) = take := by
    rw [pySlice_length pow _ _ (by omega) (by omega) (by omega)]
    omega
  have hstep : vrtReceive s (.data n pow) =
      .ok ({ s with
          data_bytes_received := s.data_bytes_received + n * 4,
          vrt_context := { s.vrt_context with
            reflevel := some (s.vrt_context.reflevel.getD 0) },
          bins := [],
          ss_received := 0,
          ss_index := some 0,
          data_bytes_processed := s.data_bytes_processed + take * 4 },
        some (s.fstart, s.fstop,
          s.bins ++ pySlice pow (ss.bins_skip + pass_now)
            (ss.bins_skip + pass_now + take)), []) := by
    simp only [vrtReceive]
    rw [if_pos hm]
    simp only [hrff, hidx, hss0]
    rw [if_neg ?hge]
    case hge => simpa [← hpn, ← htk] using hfin
    rw [if_neg ?hpl]
    case hpl => simp [hplan]
    simp only [hcont, hasync, if_true]
  refine ⟨_, _, hstep, ?_, rfl, rfl, rfl, hplan.trans hplan.symm, ?_⟩
  · simp only [List.length_append]
    push_cast
    omega
  · intro ps s3 rs hlenps hrunc r hr
    exact feedCont_keep ss ⟨hskip, hpass0, hpassrun, hkeep1⟩ ps
      { s with
          data_bytes_received := s.data_bytes_received + n * 4,
          vrt_context := { s.vrt_context with
            reflevel := some (s.vrt_context.reflevel.getD 0) },
          bins := [],
          ss_received := 0,
          ss_index := some 0,
          data_bytes_processed := s.data_bytes_processed + take * 4 }
      ⟨hplan, rfl, le_refl 0, by dsimp only; omega, rfl⟩
      hcont hasync hlenps s3 rs hrunc r hr

/-- Concrete step for the C7 witness. -/
def c7step : SweepStep :=
  { fcenter := 0, fstep := 0, fshift := 0, decimation := 1, points := 8,
    bins_skip := 1, bins_run := 3, bins_pass := 1, bins_keep := 3 }

/-- Mid-step continuous async session for the C7 witness: one bin
already collected, the next data packet completes the sweep. -/
def c7state : SweepState :=
  { sweep_id := 9
    prev_sweep_id := none
    vrt_context := { sweepid := some 9, reflevel := some 0, rffreq := some 55 }
    ss_index := some 0
    ss_received := 1
    bins := [7]
    continuous := true
    asyncMode := true
    plan := [c7step]
    fstart := 100
    fstop := 200
    context_bytes_received := 0
    data_bytes_received := 0
    data_bytes_processed := 0
    martian_bytes_discarded := 0
    past_end_bytes_discarded := 0 }

/-- Witness for C7 at the concrete completing packet. -/
theorem claim_C7_witness :
    ∃ s2 bOut,
      vrtReceive c7state (.data 4 [1, 2, 3, 4]) =
        .ok (s2, some (c7state.fstart, c7state.fstop, bOut),
          ([] : List HwAction)) ∧
      (bOut.length : ℤ) = c7step.bins_keep ∧
      s2.ss_index = some 0 ∧ s2.ss_received = 0 ∧ s2.bins = [] ∧
      s2.plan = c7state.plan ∧
      (∀ ps s3 rs, (∀ p ∈ ps, dataLenOK c7step p) →
        feedCont s2 ps = .ok (s3, rs) →
        ∀ r ∈ rs, ((r.2.2 : List ℚ).length : ℤ) = c7step.bins_keep) :=
  claim_C7 c7step (by refine ⟨?_, ?_, ?_, ?_⟩ <;> decide) c7state rfl rfl
    ⟨rfl, rfl, by decide, by decide, by decide⟩ 4 [1, 2, 3, 4] 55 rfl rfl
    (by decide) (by decide)
